import Mathlib

/-!
Verification of the TieLineManager tie-line engine and virtual router.

The definitions below are a shallow embedding of the JavaScript sources:
  * `TieLineEngine` (tie-line-engine.js): pool initialization, the virtual
    route dispatcher with its intra-router and inter-router branches,
    destination release, release-all and reconstruction from routing.
  * `VirtualRouter` (virtual-router.js): exclusion sets, visible port
    sequences, virtual/physical index resolution and its inverse.

JavaScript numbers holding port indices are modelled as `Nat`; `null` /
`undefined` as `Option.none`; a router's sparse `routing` object as an
association list from output index to input index (JavaScript object keys
are unique, which reconstruction relies on); `status : 'free' | 'in-use'`
as a two-constructor inductive.  The two physical controllers are modelled
by a `connected` flag and a routing mirror; `setRoute` is modelled with an
explicit success/failure outcome (the JavaScript `await` either returns or
throws), and every issued `setRoute` is logged in a command list so that
claims about which physical commands a call issues are statable.
-/

namespace TLM

/-- Which physical router: `'A'` or `'B'` in the source. -/
inductive RouterId where
  | A
  | B
deriving DecidableEq, Repr

/-- Tie-line record status: `'free'` or `'in-use'` in the source. -/
inductive TLStatus where
  | free
  | inUse
deriving DecidableEq, Repr

/-- One runtime tie-line record (an element of `state.aToB` / `state.bToA`).
For the `aToB` pool, `srcOutput` is the source's `routerAOutput` and
`dstInput` its `routerBInput`; for the `bToA` pool they are `routerBOutput`
and `routerAInput` respectively. -/
structure TieLine where
  index : Nat
  srcOutput : Nat
  dstInput : Nat
  status : TLStatus
  sourceInput : Option Nat
  destinations : List Nat
deriving DecidableEq, Repr

/-- One configured tie-line cable (an element of `config.aToB` /
`config.bToA`), with the same field-name convention as `TieLine`. -/
structure ConfigEntry where
  srcOutput : Nat
  dstInput : Nat
deriving DecidableEq, Repr

/-- The tie-line configuration (`tieLineConfig`). -/
structure TLConfig where
  aToB : List ConfigEntry
  bToA : List ConfigEntry
deriving DecidableEq, Repr

/-- The engine's runtime state (`this.state`). -/
structure EngineState where
  aToB : List TieLine
  bToA : List TieLine
deriving DecidableEq, Repr

/-- A physical controller as the engine sees it: `isConnected()` and the
`routing` mirror of `getState().routing`. -/
structure Router where
  connected : Bool
  routing : List (Nat × Nat)
deriving DecidableEq, Repr

/-- The engine together with its two controllers. -/
structure Sys where
  controllerA : Router
  controllerB : Router
  state : EngineState
deriving DecidableEq, Repr

/-- A physical `setRoute(output, input, level)` command issued on a router. -/
structure Cmd where
  router : RouterId
  output : Nat
  input : Nat
  level : Nat
deriving DecidableEq, Repr

/-- A pool direction, the `'aToB'` / `'bToA'` strings of the source. -/
inductive Direction where
  | aToB
  | bToA
deriving DecidableEq, Repr

/-- The engine's structured failure messages.  `allInUse d n m` stands for
the template string `All d tie-lines are in use (n/m)`; the source fills
both interpolations with the pool length. -/
inductive EngineError where
  | invalidIndex
  | unknownScenario
  | notConnected (r : RouterId)
  | routeFailed (r : RouterId)
  | routeFailedAfterFirstLeg (r : RouterId)
  | allInUse (d : Direction) (used : Nat) (total : Nat)
deriving DecidableEq, Repr

/-- The result object of `executeVirtualRoute` and its helpers.  A field
absent from the JavaScript object reads as its default here (JavaScript
reads a missing field as `undefined`, which is falsy). -/
structure RouteResult where
  success : Bool
  direct : Bool := false
  tieLineIndex : Option Nat := none
  reused : Bool := false
  partialFailure : Bool := false
  error : Option EngineError := none
deriving DecidableEq, Repr

/-- Outcome of one engine entry point: the returned result object, the
updated system, and the physical `setRoute` commands issued (in order). -/
structure StepOut where
  result : RouteResult
  sys : Sys
  cmds : List Cmd
deriving DecidableEq, Repr

/-- A failure result carrying an error, all other fields defaulted. -/
def failResult (e : EngineError) : RouteResult :=
  { success := false, error := some e }

/-- `resolveInput` / `resolveOutput` result: `{ router, physicalIndex }`. -/
structure Resolved where
  router : RouterId
  physicalIndex : Nat
deriving DecidableEq, Repr

/-- Association-list lookup for a router's `routing` object. -/
def lookupRoute : List (Nat × Nat) → Nat → Option Nat
  | [], _ => none
  | (k, v) :: rest, output => if k = output then some v else lookupRoute rest output

/-- Association-list update for a router's `routing` object
(`routing[output] = input`). -/
def setRouteEntry : List (Nat × Nat) → Nat → Nat → List (Nat × Nat)
  | [], output, input => [(output, input)]
  | (k, v) :: rest, output, input =>
    if k = output then (output, input) :: rest else (k, v) :: setRouteEntry rest output input

/-- The effect on a router's mirror of a successful `setRoute`. -/
def Router.applyRoute (r : Router) (output input : Nat) : Router :=
  { r with routing := setRouteEntry r.routing output input }

/-- `router === 'A' ? this.controllerA : this.controllerB`. -/
def Sys.controller (sys : Sys) : RouterId → Router
  | RouterId.A => sys.controllerA
  | RouterId.B => sys.controllerB

/-- Apply a successful `setRoute` on the named router. -/
def Sys.applyRoute (sys : Sys) (router : RouterId) (output input : Nat) : Sys :=
  match router with
  | RouterId.A => { sys with controllerA := sys.controllerA.applyRoute output input }
  | RouterId.B => { sys with controllerB := sys.controllerB.applyRoute output input }

/-- A fresh `'free'` record, as built by `initializeState` from one
configuration entry and its array position. -/
def mkFreeTieLine (idx : Nat) (e : ConfigEntry) : TieLine :=
  { index := idx
    srcOutput := e.srcOutput
    dstInput := e.dstInput
    status := TLStatus.free
    sourceInput := none
    destinations := [] }

/-- `initializeState()`: both pools rebuilt from the configuration with
`config.map((tl, idx) => ...)`. -/
def initializeState (cfg : TLConfig) : EngineState :=
  { aToB := cfg.aToB.mapIdx (fun idx e => mkFreeTieLine idx e)
    bToA := cfg.bToA.mapIdx (fun idx e => mkFreeTieLine idx e) }

/-- The record content after `_releaseTieLineDestination` removes one
destination: filter the destination out, and free the record when the
list empties. -/
def releasedTieLine (tl : TieLine) (removedDest : Nat) : TieLine :=
  let ds := tl.destinations.filter (fun d => decide (d ≠ removedDest))
  if ds.isEmpty then
    { tl with destinations := ds, status := TLStatus.free, sourceInput := none }
  else
    { tl with destinations := ds }

/-- `_releaseTieLineDestination(direction, tieLineIndex, removedDest)` on one
pool: look the record up by array position; do nothing unless it is
`'in-use'`. -/
def releaseTieLineDestination (pool : List TieLine) (tieLineIndex removedDest : Nat) :
    List TieLine :=
  match pool[tieLineIndex]? with
  | none => pool
  | some tieLine =>
    if tieLine.status = TLStatus.inUse then
      pool.set tieLineIndex (releasedTieLine tieLine removedDest)
    else pool

/-- The search predicate `tl.status === 'in-use' && tl.destinations.includes(destOutput)`. -/
def inUseWithDest (destOutput : Nat) (tl : TieLine) : Bool :=
  decide (tl.status = TLStatus.inUse ∧ destOutput ∈ tl.destinations)

/-- `_handleOutputReassignment(direction, destOutput)` on one pool: find the
in-use record carrying the output and release that destination from it
(the release looks the record up again through its `index` field). -/
def handleOutputReassignment (pool : List TieLine) (destOutput : Nat) : List TieLine :=
  match pool.find? (inUseWithDest destOutput) with
  | none => pool
  | some oldTieLine => releaseTieLineDestination pool oldTieLine.index destOutput

/-- `_cleanupOutputTieLine(sourceRouter, destRouter, destPhysicalOutput)`:
on the pool directed into the destination router, find the in-use record
carrying the output and release that destination.  (The source branches on
the destination router only.) -/
def cleanupOutputTieLine (st : EngineState) (_sourceRouter destRouter : RouterId)
    (destPhysicalOutput : Nat) : EngineState :=
  match destRouter with
  | RouterId.A =>
    match st.bToA.find? (inUseWithDest destPhysicalOutput) with
    | some tieLine =>
      { st with bToA := releaseTieLineDestination st.bToA tieLine.index destPhysicalOutput }
    | none => st
  | RouterId.B =>
    match st.aToB.find? (inUseWithDest destPhysicalOutput) with
    | some tieLine =>
      { st with aToB := releaseTieLineDestination st.aToB tieLine.index destPhysicalOutput }
    | none => st

/-- The reuse-search predicate `tl.status === 'in-use' && tl.sourceInput === sourceInput`. -/
def matchesSource (sourceInput : Nat) (tl : TieLine) : Bool :=
  decide (tl.status = TLStatus.inUse ∧ tl.sourceInput = some sourceInput)

/-- The allocation-search predicate `tl.status === 'free'`. -/
def isFree (tl : TieLine) : Bool :=
  decide (tl.status = TLStatus.free)

/-- `if (!tieLine.destinations.includes(destOutput)) tieLine.destinations.push(destOutput)`. -/
def addDestination (destOutput : Nat) (tl : TieLine) : TieLine :=
  if destOutput ∈ tl.destinations then tl
  else { tl with destinations := tl.destinations ++ [destOutput] }

/-- The commit of a fresh allocation: `status='in-use'; sourceInput=...;
destinations=[destOutput]`. -/
def commitTieLine (sourceInput destOutput : Nat) (tl : TieLine) : TieLine :=
  { tl with
    status := TLStatus.inUse
    sourceInput := some sourceInput
    destinations := [destOutput] }

/-- JavaScript `Array.prototype.find` hands back a live reference, so a
mutation through it rewrites the first matching element in place. -/
def modifyFirstMatch (p : TieLine → Bool) (f : TieLine → TieLine) : List TieLine → List TieLine
  | [] => []
  | tl :: rest => if p tl then f tl :: rest else tl :: modifyFirstMatch p f rest

/-- `_routeDirect(router, sourceInput, destOutput, level)`: one `setRoute`
on the named router; `ok` is the outcome of that physical request. -/
def routeDirect (sys : Sys) (router : RouterId) (sourceInput destOutput level : Nat)
    (ok : Bool) : StepOut :=
  if (sys.controller router).connected then
    let cmd : Cmd := { router := router, output := destOutput, input := sourceInput, level := level }
    if ok then
      { result := { success := true, direct := true }
        sys := sys.applyRoute router destOutput sourceInput
        cmds := [cmd] }
    else
      { result := failResult (EngineError.routeFailed router), sys := sys, cmds := [cmd] }
  else
    { result := failResult (EngineError.notConnected router), sys := sys, cmds := [] }

/-- `_routeAToB(sourceInput, destOutput, level)`.  `ok1` is the outcome of
the first physical `setRoute` the branch issues, `ok2` of the second (the
reuse branch issues only one). -/
def routeAToB (sys : Sys) (sourceInput destOutput level : Nat) (ok1 ok2 : Bool) : StepOut :=
  if sys.controllerA.connected then
    if sys.controllerB.connected then
      match sys.state.aToB.find? (matchesSource sourceInput) with
      | some tieLine =>
        -- Reuse existing tie-line: route on Router B side only.
        let cmd : Cmd := { router := RouterId.B, output := destOutput, input := tieLine.dstInput, level := level }
        if ok1 then
          let sys1 := sys.applyRoute RouterId.B destOutput tieLine.dstInput
          let pool := modifyFirstMatch (matchesSource sourceInput)
            (addDestination destOutput) sys1.state.aToB
          { result := { success := true, tieLineIndex := some tieLine.index, reused := true }
            sys := { sys1 with state := { sys1.state with aToB := pool } }
            cmds := [cmd] }
        else
          { result := failResult (EngineError.routeFailed RouterId.B), sys := sys, cmds := [cmd] }
      | none =>
        match sys.state.aToB.find? isFree with
        | none =>
          let total := sys.state.aToB.length
          { result := failResult (EngineError.allInUse Direction.aToB total total)
            sys := sys
            cmds := [] }
        | some tieLine =>
          -- Step 1: route source to tie-line output on Router A.
          let cmd1 : Cmd := { router := RouterId.A, output := tieLine.srcOutput, input := sourceInput, level := level }
          if ok1 then
            let sys1 := sys.applyRoute RouterId.A tieLine.srcOutput sourceInput
            -- Step 2: route tie-line input to destination on Router B.
            let cmd2 : Cmd := { router := RouterId.B, output := destOutput, input := tieLine.dstInput, level := level }
            if ok2 then
              let sys2 := sys1.applyRoute RouterId.B destOutput tieLine.dstInput
              let pool := modifyFirstMatch isFree
                (commitTieLine sourceInput destOutput) sys2.state.aToB
              { result := { success := true, tieLineIndex := some tieLine.index, reused := false }
                sys := { sys2 with state := { sys2.state with aToB := pool } }
                cmds := [cmd1, cmd2] }
            else
              { result := { success := false
                            partialFailure := true
                            error := some (EngineError.routeFailedAfterFirstLeg RouterId.B) }
                sys := sys1
                cmds := [cmd1, cmd2] }
          else
            { result := failResult (EngineError.routeFailed RouterId.A)
              sys := sys
              cmds := [cmd1] }
    else
      { result := failResult (EngineError.notConnected RouterId.B), sys := sys, cmds := [] }
  else
    { result := failResult (EngineError.notConnected RouterId.A), sys := sys, cmds := [] }

/-- `_routeBToA(sourceInput, destOutput, level)`, the symmetric path. -/
def routeBToA (sys : Sys) (sourceInput destOutput level : Nat) (ok1 ok2 : Bool) : StepOut :=
  if sys.controllerB.connected then
    if sys.controllerA.connected then
      match sys.state.bToA.find? (matchesSource sourceInput) with
      | some tieLine =>
        -- Reuse existing tie-line: route on Router A side only.
        let cmd : Cmd := { router := RouterId.A, output := destOutput, input := tieLine.dstInput, level := level }
        if ok1 then
          let sys1 := sys.applyRoute RouterId.A destOutput tieLine.dstInput
          let pool := modifyFirstMatch (matchesSource sourceInput)
            (addDestination destOutput) sys1.state.bToA
          { result := { success := true, tieLineIndex := some tieLine.index, reused := true }
            sys := { sys1 with state := { sys1.state with bToA := pool } }
            cmds := [cmd] }
        else
          { result := failResult (EngineError.routeFailed RouterId.A), sys := sys, cmds := [cmd] }
      | none =>
        match sys.state.bToA.find? isFree with
        | none =>
          let total := sys.state.bToA.length
          { result := failResult (EngineError.allInUse Direction.bToA total total)
            sys := sys
            cmds := [] }
        | some tieLine =>
          -- Step 1: route source to tie-line output on Router B.
          let cmd1 : Cmd := { router := RouterId.B, output := tieLine.srcOutput, input := sourceInput, level := level }
          if ok1 then
            let sys1 := sys.applyRoute RouterId.B tieLine.srcOutput sourceInput
            -- Step 2: route tie-line input to destination on Router A.
            let cmd2 : Cmd := { router := RouterId.A, output := destOutput, input := tieLine.dstInput, level := level }
            if ok2 then
              let sys2 := sys1.applyRoute RouterId.A destOutput tieLine.dstInput
              let pool := modifyFirstMatch isFree
                (commitTieLine sourceInput destOutput) sys2.state.bToA
              { result := { success := true, tieLineIndex := some tieLine.index, reused := false }
                sys := { sys2 with state := { sys2.state with bToA := pool } }
                cmds := [cmd1, cmd2] }
            else
              { result := { success := false
                            partialFailure := true
                            error := some (EngineError.routeFailedAfterFirstLeg RouterId.A) }
                sys := sys1
                cmds := [cmd1, cmd2] }
          else
            { result := failResult (EngineError.routeFailed RouterId.B)
              sys := sys
              cmds := [cmd1] }
    else
      { result := failResult (EngineError.notConnected RouterId.A), sys := sys, cmds := [] }
  else
    { result := failResult (EngineError.notConnected RouterId.B), sys := sys, cmds := [] }

/-- `executeVirtualRoute` after the two `resolveInput` / `resolveOutput`
calls: `source` and `dest` are their results.  `ok1`, `ok2` are the
outcomes of the physical `setRoute` calls the chosen branch issues, in
order. -/
def executeRoute (sys : Sys) (source dest : Option Resolved) (level : Nat)
    (ok1 ok2 : Bool) : StepOut :=
  match source, dest with
  | some s, some d =>
    if s.router = d.router then
      -- Same router: clean up any tie-line this output was using, then route.
      let sys1 := { sys with
        state := cleanupOutputTieLine sys.state s.router d.router d.physicalIndex }
      routeDirect sys1 s.router s.physicalIndex d.physicalIndex level ok1
    else
      match s.router, d.router with
      | RouterId.A, RouterId.B =>
        let sys1 := { sys with state := { sys.state with
          aToB := handleOutputReassignment sys.state.aToB d.physicalIndex } }
        routeAToB sys1 s.physicalIndex d.physicalIndex level ok1 ok2
      | RouterId.B, RouterId.A =>
        let sys1 := { sys with state := { sys.state with
          bToA := handleOutputReassignment sys.state.bToA d.physicalIndex } }
        routeBToA sys1 s.physicalIndex d.physicalIndex level ok1 ok2
      | _, _ =>
        { result := failResult EngineError.unknownScenario, sys := sys, cmds := [] }
  | _, _ => { result := failResult EngineError.invalidIndex, sys := sys, cmds := [] }

/-- A record reset to `'free'`, as in `releaseAllTieLines`. -/
def freeTieLine (tl : TieLine) : TieLine :=
  { tl with status := TLStatus.free, sourceInput := none, destinations := [] }

/-- `releaseAllTieLines()`. -/
def releaseAllTieLines (st : EngineState) : EngineState :=
  { aToB := st.aToB.map freeTieLine, bToA := st.bToA.map freeTieLine }

/-- The destination set reconstruction collects on the far router: outputs
routed to the record's sink input, excluding tie-line source outputs and
the default 1:1 passthrough (`outIdx !== parseInt(input)`).  `routingDst`
is enumerated the way `Object.entries` enumerates a routing object: each
output key once, in ascending numeric order. -/
def reconstructDests (routingDst : List (Nat × Nat)) (excludedOutputs : List Nat)
    (sinkInput : Nat) : List Nat :=
  (routingDst.filter (fun oi =>
    decide (oi.2 = sinkInput ∧ oi.1 ∉ excludedOutputs ∧ oi.1 ≠ oi.2))).map Prod.fst

/-- One record of `reconstructStateFromRouting`: in use with the observed
source and destinations exactly when the source leg is routed and some
destination taps the sink; free otherwise. -/
def reconstructTieLine (routingSrc routingDst : List (Nat × Nat))
    (excludedOutputs : List Nat) (tl : TieLine) : TieLine :=
  let sourceOnSrc := lookupRoute routingSrc tl.srcOutput
  let dests := reconstructDests routingDst excludedOutputs tl.dstInput
  match sourceOnSrc with
  | some s =>
    if dests.isEmpty then freeTieLine tl
    else { tl with status := TLStatus.inUse, sourceInput := some s, destinations := dests }
  | none => freeTieLine tl

/-- `reconstructStateFromRouting()` given the two controllers' routing
mirrors.  (The source also builds `tieLineBInputs` / `tieLineAInputs`
sets, but never reads them.) -/
def reconstructStateFromRouting (cfg : TLConfig) (routingA routingB : List (Nat × Nat))
    (st : EngineState) : EngineState :=
  let tieLineAOutputs := cfg.aToB.map ConfigEntry.srcOutput
  let tieLineBOutputs := cfg.bToA.map ConfigEntry.srcOutput
  { aToB := st.aToB.map (reconstructTieLine routingA routingB tieLineBOutputs)
    bToA := st.bToA.map (reconstructTieLine routingB routingA tieLineAOutputs) }

/-- A routing object has each output key at most once (JavaScript object
keys are unique). -/
def keysNodup (routing : List (Nat × Nat)) : Prop :=
  (routing.map Prod.fst).Nodup

/-- One externally visible engine operation, as a relation between
configuration/state pairs.  `route` covers `executeVirtualRoute` with any
resolution results, controller states and physical outcomes; `reconfigure`
is `updateConfig` (which reinitializes both pools); `reconstruct` is
`reconstructStateFromRouting` against any routing mirrors (run directly
after a reconnect, or by `updateConfig` when both controllers are up). -/
inductive EngineOp : TLConfig → EngineState → TLConfig → EngineState → Prop where
  | route (cfg st cA cB source dest level ok1 ok2) :
      EngineOp cfg st cfg
        (executeRoute { controllerA := cA, controllerB := cB, state := st }
          source dest level ok1 ok2).sys.state
  | releaseAll (cfg st) : EngineOp cfg st cfg (releaseAllTieLines st)
  | reconfigure (cfg st newCfg) : EngineOp cfg st newCfg (initializeState newCfg)
  | reconstruct (cfg st routingA routingB) (hA : keysNodup routingA)
      (hB : keysNodup routingB) :
      EngineOp cfg st cfg (reconstructStateFromRouting cfg routingA routingB st)

/-- Engine states reachable from initialization by any sequence of engine
operations, every configuration used satisfying `ok`. -/
inductive Reachable (ok : TLConfig → Prop) : TLConfig → EngineState → Prop where
  | init (cfg) (h : ok cfg) : Reachable ok cfg (initializeState cfg)
  | step (cfg st cfg2 st2) (h : Reachable ok cfg st) (hok : ok cfg2)
      (hop : EngineOp cfg st cfg2 st2) : Reachable ok cfg2 st2

/-- P2, per record: `status = in-use ⇔ destinations ≠ ∅ ⇔ sourceInput ≠ nil`. -/
def statusConsistent (tl : TieLine) : Prop :=
  (tl.status = TLStatus.inUse ↔ tl.destinations ≠ []) ∧
  (tl.status = TLStatus.inUse ↔ tl.sourceInput ≠ none)

/-- Every record's `index` field equals its array position. -/
def poolPositional (pool : List TieLine) : Prop :=
  ∀ (i : Nat) (tl : TieLine), pool[i]? = some tl → tl.index = i

/-- The pool records carry the configured ports, position by position. -/
def poolMatchesConfig (cfgPool : List ConfigEntry) (pool : List TieLine) : Prop :=
  pool.length = cfgPool.length ∧
  ∀ (i : Nat) (e : ConfigEntry) (tl : TieLine), cfgPool[i]? = some e → pool[i]? = some tl →
    tl.srcOutput = e.srcOutput ∧ tl.dstInput = e.dstInput

/-- P1, pairwise form: no destination port is carried by two records. -/
def poolExclusive (pool : List TieLine) : Prop :=
  ∀ (q i j : Nat) (ti tj : TieLine), i ≠ j → pool[i]? = some ti → pool[j]? = some tj →
    q ∈ ti.destinations → q ∉ tj.destinations

/-- The structural pool invariant that needs no configuration hypothesis. -/
def poolInv1 (cfgPool : List ConfigEntry) (pool : List TieLine) : Prop :=
  poolPositional pool ∧ poolMatchesConfig cfgPool pool ∧
  ∀ (i : Nat) (tl : TieLine), pool[i]? = some tl → statusConsistent tl

/-- No record of the pool carries `d` among its destinations. -/
def noDest (pool : List TieLine) (d : Nat) : Prop :=
  ∀ (j : Nat) (tl : TieLine), pool[j]? = some tl → d ∉ tl.destinations

/-- The configuration precondition: within one direction no sink input
index repeats. -/
def configOk (cfg : TLConfig) : Prop :=
  (cfg.aToB.map ConfigEntry.dstInput).Nodup ∧ (cfg.bToA.map ConfigEntry.dstInput).Nodup

/-- Number of `'in-use'` records in a pool. -/
def countInUse (pool : List TieLine) : Nat :=
  pool.countP (fun tl => decide (tl.status = TLStatus.inUse))

/-- A mirrored router's port counts, the part of the router state the
virtual projection's index mapping reads. -/
structure RouterPorts where
  inputs : Nat
  outputs : Nat
deriving DecidableEq, Repr

/-- The `VirtualRouter` projection (virtual-router.js), restricted to the
fields its index mapping uses. -/
structure VirtualRouter where
  routerA : RouterPorts
  routerB : RouterPorts
  tieLineConfig : TLConfig
deriving DecidableEq, Repr

/-- Exclusion set: A-outputs used as A→B tie-line sources. -/
def VirtualRouter.excludedAOutputs (vr : VirtualRouter) : List Nat :=
  vr.tieLineConfig.aToB.map ConfigEntry.srcOutput

/-- Exclusion set: B-outputs used as B→A tie-line sources. -/
def VirtualRouter.excludedBOutputs (vr : VirtualRouter) : List Nat :=
  vr.tieLineConfig.bToA.map ConfigEntry.srcOutput

/-- Exclusion set: A-inputs used as B→A tie-line sinks. -/
def VirtualRouter.excludedAInputs (vr : VirtualRouter) : List Nat :=
  vr.tieLineConfig.bToA.map ConfigEntry.dstInput

/-- Exclusion set: B-inputs used as A→B tie-line sinks. -/
def VirtualRouter.excludedBInputs (vr : VirtualRouter) : List Nat :=
  vr.tieLineConfig.aToB.map ConfigEntry.dstInput

/-- `_getVisibleAInputs()`: ascending physical A-input indices with the
excluded ones removed. -/
def VirtualRouter.visibleAInputs (vr : VirtualRouter) : List Nat :=
  (List.range vr.routerA.inputs).filter (fun i => decide (i ∉ vr.excludedAInputs))

/-- `_getVisibleBInputs()`. -/
def VirtualRouter.visibleBInputs (vr : VirtualRouter) : List Nat :=
  (List.range vr.routerB.inputs).filter (fun i => decide (i ∉ vr.excludedBInputs))

/-- `_getVisibleAOutputs()`. -/
def VirtualRouter.visibleAOutputs (vr : VirtualRouter) : List Nat :=
  (List.range vr.routerA.outputs).filter (fun i => decide (i ∉ vr.excludedAOutputs))

/-- `_getVisibleBOutputs()`. -/
def VirtualRouter.visibleBOutputs (vr : VirtualRouter) : List Nat :=
  (List.range vr.routerB.outputs).filter (fun i => decide (i ∉ vr.excludedBOutputs))

/-- `totalInputs`. -/
def VirtualRouter.totalInputs (vr : VirtualRouter) : Nat :=
  vr.visibleAInputs.length + vr.visibleBInputs.length

/-- `totalOutputs`. -/
def VirtualRouter.totalOutputs (vr : VirtualRouter) : Nat :=
  vr.visibleAOutputs.length + vr.visibleBOutputs.length

/-- `resolveInput(virtualIndex)`: A-visible inputs first, then B-visible. -/
def VirtualRouter.resolveInput (vr : VirtualRouter) (virtualIndex : Nat) : Option Resolved :=
  let aInputs := vr.visibleAInputs
  if h : virtualIndex < aInputs.length then
    some { router := RouterId.A, physicalIndex := aInputs.get ⟨virtualIndex, h⟩ }
  else
    let bIdx := virtualIndex - aInputs.length
    let bInputs := vr.visibleBInputs
    if h2 : bIdx < bInputs.length then
      some { router := RouterId.B, physicalIndex := bInputs.get ⟨bIdx, h2⟩ }
    else none

/-- `resolveOutput(virtualIndex)`. -/
def VirtualRouter.resolveOutput (vr : VirtualRouter) (virtualIndex : Nat) : Option Resolved :=
  let aOutputs := vr.visibleAOutputs
  if h : virtualIndex < aOutputs.length then
    some { router := RouterId.A, physicalIndex := aOutputs.get ⟨virtualIndex, h⟩ }
  else
    let bIdx := virtualIndex - aOutputs.length
    let bOutputs := vr.visibleBOutputs
    if h2 : bIdx < bOutputs.length then
      some { router := RouterId.B, physicalIndex := bOutputs.get ⟨bIdx, h2⟩ }
    else none

/-- `physicalInputToVirtual(router, physicalIndex)`; the JavaScript returns
the position of `physicalIndex` in the visible sequence (plus the A-length
offset for router B) or `-1` when it is not there. -/
def VirtualRouter.physicalInputToVirtual (vr : VirtualRouter) (router : RouterId)
    (physicalIndex : Nat) : Int :=
  match router with
  | RouterId.A =>
    let aInputs := vr.visibleAInputs
    if physicalIndex ∈ aInputs then (aInputs.indexOf physicalIndex : Int) else -1
  | RouterId.B =>
    let bInputs := vr.visibleBInputs
    if physicalIndex ∈ bInputs then
      ((vr.visibleAInputs.length + bInputs.indexOf physicalIndex : Nat) : Int)
    else -1

/-- `physicalOutputToVirtual(router, physicalIndex)`. -/
def VirtualRouter.physicalOutputToVirtual (vr : VirtualRouter) (router : RouterId)
    (physicalIndex : Nat) : Int :=
  match router with
  | RouterId.A =>
    let aOutputs := vr.visibleAOutputs
    if physicalIndex ∈ aOutputs then (aOutputs.indexOf physicalIndex : Int) else -1
  | RouterId.B =>
    let bOutputs := vr.visibleBOutputs
    if physicalIndex ∈ bOutputs then
      ((vr.visibleAOutputs.length + bOutputs.indexOf physicalIndex : Nat) : Int)
    else -1

/-- `executeVirtualRoute(virtualOutput, virtualInput, virtualRouter, level)`:
resolve both virtual indices through the projection, then dispatch. -/
def executeVirtualRoute (sys : Sys) (virtualOutput virtualInput : Nat)
    (virtualRouter : VirtualRouter) (level : Nat) (ok1 ok2 : Bool) : StepOut :=
  executeRoute sys (virtualRouter.resolveInput virtualInput)
    (virtualRouter.resolveOutput virtualOutput) level ok1 ok2

/-- Visibility of a physical input on a router: in range and not a
tie-line sink. -/
def visibleInput (vr : VirtualRouter) : RouterId → Nat → Prop
  | RouterId.A, p => p < vr.routerA.inputs ∧ p ∉ vr.excludedAInputs
  | RouterId.B, p => p < vr.routerB.inputs ∧ p ∉ vr.excludedBInputs

/-- Visibility of a physical output on a router: in range and not a
tie-line source. -/
def visibleOutput (vr : VirtualRouter) : RouterId → Nat → Prop
  | RouterId.A, p => p < vr.routerA.outputs ∧ p ∉ vr.excludedAOutputs
  | RouterId.B, p => p < vr.routerB.outputs ∧ p ∉ vr.excludedBOutputs

/-- The other router. -/
def RouterId.other : RouterId → RouterId
  | RouterId.A => RouterId.B
  | RouterId.B => RouterId.A

/-- The tie-line pool whose destination side is the given router: records
of `aToB` land on router B, records of `bToA` land on router A. -/
def EngineState.poolInto (st : EngineState) : RouterId → List TieLine
  | RouterId.A => st.bToA
  | RouterId.B => st.aToB

/-- The direction label of the pool directed into the given router. -/
def dirInto : RouterId → Direction
  | RouterId.A => Direction.bToA
  | RouterId.B => Direction.aToB

/-- The structural engine invariant over both pools. -/
def engineInv1 (cfg : TLConfig) (st : EngineState) : Prop :=
  poolInv1 cfg.aToB st.aToB ∧ poolInv1 cfg.bToA st.bToA

/-- Exclusivity over both pools. -/
def engineExcl (st : EngineState) : Prop :=
  poolExclusive st.aToB ∧ poolExclusive st.bToA

/-- Pool evolution that allocates nothing: same length, the in-use count
does not grow, and no record that was free changes status. -/
def noAllocation (pool pool2 : List TieLine) : Prop :=
  pool2.length = pool.length ∧
  countInUse pool2 ≤ countInUse pool ∧
  ∀ (i : Nat) (a b : TieLine), pool[i]? = some a → pool2[i]? = some b →
    a.status = TLStatus.free → b.status = TLStatus.free

/-- Single-cable example configuration from the spec's scenarios:
`aToB = [(7, 0)]`. -/
def exCfg1 : TLConfig :=
  { aToB := [{ srcOutput := 7, dstInput := 0 }], bToA := [] }

/-- Two-cable example configuration: `aToB = [(7, 0), (6, 1)]`. -/
def exCfg2 : TLConfig :=
  { aToB := [{ srcOutput := 7, dstInput := 0 }, { srcOutput := 6, dstInput := 1 }]
    bToA := [] }

/-- Fresh engine on a configuration, both controllers connected, empty
routing mirrors. -/
def exSys0 (cfg : TLConfig) : Sys :=
  { controllerA := { connected := true, routing := [] }
    controllerB := { connected := true, routing := [] }
    state := initializeState cfg }

/-- The two-cable system after two allocations: source 0 carried to
destination 2 on the first cable, source 1 to destination 3 on the
second. -/
def exSys2 : Sys :=
  (executeRoute
    (executeRoute (exSys0 exCfg2)
      (some { router := RouterId.A, physicalIndex := 0 })
      (some { router := RouterId.B, physicalIndex := 2 }) 0 true true).sys
    (some { router := RouterId.A, physicalIndex := 1 })
    (some { router := RouterId.B, physicalIndex := 3 }) 0 true true).sys

/-- The first record of the two-allocation example state. -/
def exTl0 : TieLine :=
  { index := 0, srcOutput := 7, dstInput := 0, status := TLStatus.inUse, sourceInput := some 0, destinations := [2] }

/-- The second record of the two-allocation example state. -/
def exTl1 : TieLine :=
  { index := 1, srcOutput := 6, dstInput := 1, status := TLStatus.inUse, sourceInput := some 1, destinations := [3] }

/-- Example projection: two 8×8 routers with the single-cable
configuration. -/
def exVr : VirtualRouter :=
  { routerA := { inputs := 8, outputs := 8 }
    routerB := { inputs := 8, outputs := 8 }
    tieLineConfig := exCfg1 }

/- ------------------------------------------------------------------ -/
/- Record-level lemmas.                                               -/
/- ------------------------------------------------------------------ -/

theorem releasedTieLine_ports (tl : TieLine) (d : Nat) :
    (releasedTieLine tl d).index = tl.index ∧
    (releasedTieLine tl d).srcOutput = tl.srcOutput ∧
    (releasedTieLine tl d).dstInput = tl.dstInput := by
  simp only [releasedTieLine]
  split <;> exact ⟨rfl, rfl, rfl⟩

theorem releasedTieLine_destinations (tl : TieLine) (d : Nat) :
    (releasedTieLine tl d).destinations =
      tl.destinations.filter (fun x => decide (x ≠ d)) := by
  simp only [releasedTieLine]
  split <;> rfl

theorem releasedTieLine_not_mem (tl : TieLine) (d : Nat) :
    d ∉ (releasedTieLine tl d).destinations := by
  rw [releasedTieLine_destinations]
  simp

theorem releasedTieLine_subset (tl : TieLine) (d : Nat) :
    ∀ q, q ∈ (releasedTieLine tl d).destinations → q ∈ tl.destinations := by
  intro q hq
  rw [releasedTieLine_destinations] at hq
  exact (List.mem_filter.mp hq).1

theorem releasedTieLine_free_iff (tl : TieLine) (d : Nat) (hin : tl.status = TLStatus.inUse) :
    (releasedTieLine tl d).status = TLStatus.free ↔
      tl.destinations.filter (fun x => decide (x ≠ d)) = [] := by
  simp only [releasedTieLine]
  split
  · next h =>
    constructor
    · intro _; exact List.isEmpty_iff.mp h
    · intro _; rfl
  · next h =>
    rw [hin]
    constructor
    · intro hc; exact TLStatus.noConfusion hc
    · intro hc; exact absurd (List.isEmpty_iff.mpr hc) h

theorem releasedTieLine_statusConsistent (tl : TieLine) (d : Nat)
    (hsc : statusConsistent tl) (hin : tl.status = TLStatus.inUse) :
    statusConsistent (releasedTieLine tl d) := by
  simp only [releasedTieLine]
  split
  · next h =>
    have h2 : tl.destinations.filter (fun x => decide (x ≠ d)) = [] :=
      List.isEmpty_iff.mp h
    constructor
    · constructor
      · intro hc; exact TLStatus.noConfusion hc
      · intro hc; exact absurd h2 hc
    · constructor
      · intro hc; exact TLStatus.noConfusion hc
      · intro hc; exact absurd rfl hc
  · next h =>
    have hsrc : tl.sourceInput ≠ none := hsc.2.mp hin
    have hne : tl.destinations.filter (fun x => decide (x ≠ d)) ≠ [] := by
      intro hc; exact h (List.isEmpty_iff.mpr hc)
    constructor
    · constructor
      · intro _; exact hne
      · intro _; exact hin
    · exact hsc.2

theorem releasedTieLine_source_iff (tl : TieLine) (d : Nat)
    (hsc : statusConsistent tl) (hin : tl.status = TLStatus.inUse) :
    (releasedTieLine tl d).sourceInput = none ↔
      (releasedTieLine tl d).status = TLStatus.free := by
  have h := releasedTieLine_statusConsistent tl d hsc hin
  constructor
  · intro hs
    by_contra hf
    have : (releasedTieLine tl d).status = TLStatus.inUse := by
      cases hst : (releasedTieLine tl d).status
      · exact absurd hst hf
      · rfl
    exact (h.2.mp this) hs
  · intro hf
    by_contra hs
    have : (releasedTieLine tl d).status = TLStatus.inUse := h.2.mpr hs
    rw [this] at hf
    exact TLStatus.noConfusion hf

theorem addDestination_ports (d : Nat) (tl : TieLine) :
    (addDestination d tl).index = tl.index ∧
    (addDestination d tl).srcOutput = tl.srcOutput ∧
    (addDestination d tl).dstInput = tl.dstInput ∧
    (addDestination d tl).status = tl.status ∧
    (addDestination d tl).sourceInput = tl.sourceInput := by
  unfold addDestination
  split <;> exact ⟨rfl, rfl, rfl, rfl, rfl⟩

theorem addDestination_mem (d : Nat) (tl : TieLine) :
    ∀ q, q ∈ (addDestination d tl).destinations → q ∈ tl.destinations ∨ q = d := by
  intro q hq
  unfold addDestination at hq
  split at hq
  · exact Or.inl hq
  · simp only [List.mem_append, List.mem_singleton] at hq
    exact hq

theorem commitTieLine_fields (s d : Nat) (tl : TieLine) :
    (commitTieLine s d tl).index = tl.index ∧
    (commitTieLine s d tl).srcOutput = tl.srcOutput ∧
    (commitTieLine s d tl).dstInput = tl.dstInput ∧
    (commitTieLine s d tl).status = TLStatus.inUse ∧
    (commitTieLine s d tl).sourceInput = some s ∧
    (commitTieLine s d tl).destinations = [d] :=
  ⟨rfl, rfl, rfl, rfl, rfl, rfl⟩

theorem freeTieLine_statusConsistent (tl : TieLine) : statusConsistent (freeTieLine tl) := by
  constructor <;> simp [freeTieLine]

theorem mkFreeTieLine_statusConsistent (i : Nat) (e : ConfigEntry) :
    statusConsistent (mkFreeTieLine i e) := by
  constructor <;> simp [mkFreeTieLine]

/- ------------------------------------------------------------------ -/
/- modifyFirstMatch and release specifications.                       -/
/- ------------------------------------------------------------------ -/

theorem modifyFirstMatch_spec (p : TieLine → Bool) (f : TieLine → TieLine) (l : List TieLine) :
    (l.find? p = none ∧ modifyFirstMatch p f l = l) ∨
    ∃ (i : Nat) (x : TieLine), l[i]? = some x ∧ p x = true ∧ l.find? p = some x ∧
      modifyFirstMatch p f l = l.set i (f x) := by
  induction l with
  | nil => exact Or.inl ⟨rfl, rfl⟩
  | cons a l ih =>
    by_cases hpa : p a
    · refine Or.inr ⟨0, a, by simp, hpa, List.find?_cons_of_pos l hpa, ?_⟩
      simp [modifyFirstMatch, hpa]
    · rcases ih with ⟨hfind, heq⟩ | ⟨i, x, hx, hpx, hfind, heq⟩
      · refine Or.inl ⟨?_, ?_⟩
        · rw [List.find?_cons_of_neg l hpa]; exact hfind
        · simp [modifyFirstMatch, hpa, heq]
      · refine Or.inr ⟨i + 1, x, by simpa using hx, hpx, ?_, ?_⟩
        · rw [List.find?_cons_of_neg l hpa]; exact hfind
        · simp [modifyFirstMatch, hpa, heq]

theorem releaseTieLineDestination_eq (pool : List TieLine) (i d : Nat) :
    releaseTieLineDestination pool i d = pool ∨
    ∃ tl : TieLine, pool[i]? = some tl ∧ tl.status = TLStatus.inUse ∧
      releaseTieLineDestination pool i d = pool.set i (releasedTieLine tl d) := by
  unfold releaseTieLineDestination
  cases h : pool[i]? with
  | none => exact Or.inl rfl
  | some tl =>
    by_cases hs : tl.status = TLStatus.inUse
    · exact Or.inr ⟨tl, rfl, hs, by simp [hs]⟩
    · exact Or.inl (by simp [hs])

theorem handleOutputReassignment_eq (pool : List TieLine) (d : Nat) :
    (pool.find? (inUseWithDest d) = none ∧ handleOutputReassignment pool d = pool) ∨
    ∃ tl : TieLine, pool.find? (inUseWithDest d) = some tl ∧
      handleOutputReassignment pool d = releaseTieLineDestination pool tl.index d := by
  unfold handleOutputReassignment
  cases h : pool.find? (inUseWithDest d) with
  | none => exact Or.inl ⟨rfl, rfl⟩
  | some tl => exact Or.inr ⟨tl, rfl, rfl⟩

/- ------------------------------------------------------------------ -/
/- Pool invariant preservation.                                       -/
/- ------------------------------------------------------------------ -/

theorem poolInv1_set {cfgPool : List ConfigEntry} {pool : List TieLine} {i : Nat}
    {tl x : TieLine} (h : poolInv1 cfgPool pool) (hget : pool[i]? = some tl)
    (hidx : x.index = tl.index) (hsrc : x.srcOutput = tl.srcOutput)
    (hdst : x.dstInput = tl.dstInput) (hsc : statusConsistent x) :
    poolInv1 cfgPool (pool.set i x) := by
  obtain ⟨hpos, ⟨hlen, hcfg⟩, hscs⟩ := h
  have hlt : i < pool.length := by
    rcases List.getElem?_eq_some_iff.mp hget with ⟨hl, _⟩
    exact hl
  refine ⟨?_, ⟨by simp [hlen], ?_⟩, ?_⟩
  · intro j y hy
    by_cases hij : i = j
    · subst hij
      rw [List.getElem?_set_self hlt] at hy
      cases hy
      rw [hidx]
      exact hpos i tl hget
    · rw [List.getElem?_set_ne hij] at hy
      exact hpos j y hy
  · intro j e y he hy
    by_cases hij : i = j
    · subst hij
      rw [List.getElem?_set_self hlt] at hy
      cases hy
      have := hcfg i e tl he hget
      exact ⟨hsrc.trans this.1, hdst.trans this.2⟩
    · rw [List.getElem?_set_ne hij] at hy
      exact hcfg j e y he hy
  · intro j y hy
    by_cases hij : i = j
    · subst hij
      rw [List.getElem?_set_self hlt] at hy
      cases hy
      exact hsc
    · rw [List.getElem?_set_ne hij] at hy
      exact hscs j y hy

theorem poolExclusive_set_subset {pool : List TieLine} {i : Nat} {tl x : TieLine}
    (hex : poolExclusive pool) (hget : pool[i]? = some tl)
    (hsub : ∀ q, q ∈ x.destinations → q ∈ tl.destinations) :
    poolExclusive (pool.set i x) := by
  have hlt : i < pool.length := by
    rcases List.getElem?_eq_some_iff.mp hget with ⟨hl, _⟩
    exact hl
  intro q j k tj tk hjk hj hk hqj
  by_cases hij : i = j
  · subst hij
    rw [List.getElem?_set_self hlt] at hj
    cases hj
    rw [List.getElem?_set_ne (fun hc => hjk hc) ] at hk
    exact hex q i k tl tk hjk hget hk (hsub q hqj)
  · rw [List.getElem?_set_ne hij] at hj
    by_cases hik : i = k
    · subst hik
      rw [List.getElem?_set_self hlt] at hk
      cases hk
      intro hqk
      exact hex q i j tl tj (fun hc => hjk hc.symm) hget hj (hsub q hqk) hqj
    · rw [List.getElem?_set_ne hik] at hk
      exact hex q j k tj tk hjk hj hk hqj

theorem poolExclusive_set_add {pool : List TieLine} {i d : Nat} {tl x : TieLine}
    (hex : poolExclusive pool) (hget : pool[i]? = some tl)
    (hnone : noDest pool d)
    (hsub : ∀ q, q ∈ x.destinations → q ∈ tl.destinations ∨ q = d) :
    poolExclusive (pool.set i x) := by
  have hlt : i < pool.length := by
    rcases List.getElem?_eq_some_iff.mp hget with ⟨hl, _⟩
    exact hl
  intro q j k tj tk hjk hj hk hqj
  by_cases hij : i = j
  · subst hij
    rw [List.getElem?_set_self hlt] at hj
    cases hj
    rw [List.getElem?_set_ne (fun hc => hjk hc)] at hk
    rcases hsub q hqj with hq | hq
    · exact hex q i k tl tk hjk hget hk hq
    · subst hq
      exact hnone k tk hk
  · rw [List.getElem?_set_ne hij] at hj
    by_cases hik : i = k
    · subst hik
      rw [List.getElem?_set_self hlt] at hk
      cases hk
      intro hqk
      rcases hsub q hqk with hq | hq
      · exact hex q i j tl tj (fun hc => hjk hc.symm) hget hj hq hqj
      · subst hq
        exact hnone j tj hj hqj
    · rw [List.getElem?_set_ne hik] at hk
      exact hex q j k tj tk hjk hj hk hqj

theorem poolInv1_release {cfgPool : List ConfigEntry} {pool : List TieLine} {i d : Nat}
    (h : poolInv1 cfgPool pool) : poolInv1 cfgPool (releaseTieLineDestination pool i d) := by
  rcases releaseTieLineDestination_eq pool i d with heq | ⟨tl, hget, hin, heq⟩
  · rw [heq]; exact h
  · rw [heq]
    have hports := releasedTieLine_ports tl d
    exact poolInv1_set h hget hports.1 hports.2.1 hports.2.2
      (releasedTieLine_statusConsistent tl d (h.2.2 i tl hget) hin)

theorem poolExclusive_release {pool : List TieLine} {i d : Nat}
    (hex : poolExclusive pool) : poolExclusive (releaseTieLineDestination pool i d) := by
  rcases releaseTieLineDestination_eq pool i d with heq | ⟨tl, hget, _, heq⟩
  · rw [heq]; exact hex
  · rw [heq]
    exact poolExclusive_set_subset hex hget (releasedTieLine_subset tl d)

theorem poolInv1_reassign {cfgPool : List ConfigEntry} {pool : List TieLine} {d : Nat}
    (h : poolInv1 cfgPool pool) : poolInv1 cfgPool (handleOutputReassignment pool d) := by
  rcases handleOutputReassignment_eq pool d with ⟨_, heq⟩ | ⟨tl, _, heq⟩
  · rw [heq]; exact h
  · rw [heq]; exact poolInv1_release h

theorem poolExclusive_reassign {pool : List TieLine} {d : Nat}
    (hex : poolExclusive pool) : poolExclusive (handleOutputReassignment pool d) := by
  rcases handleOutputReassignment_eq pool d with ⟨_, heq⟩ | ⟨tl, _, heq⟩
  · rw [heq]; exact hex
  · rw [heq]; exact poolExclusive_release hex

/-- After the reassignment step no record of the pool carries `d` any
more (the record that did loses it, and by exclusivity it was alone). -/
theorem noDest_reassign {pool : List TieLine} {d : Nat}
    (hpos : poolPositional pool)
    (hscs : ∀ (i : Nat) (tl : TieLine), pool[i]? = some tl → statusConsistent tl)
    (hex : poolExclusive pool) : noDest (handleOutputReassignment pool d) d := by
  unfold handleOutputReassignment
  cases hf : pool.find? (inUseWithDest d) with
  | none =>
    intro j tl hj hmem
    have hnotp := List.find?_eq_none.mp hf tl (List.getElem?_mem hj)
    have hin : tl.status = TLStatus.inUse :=
      (hscs j tl hj).1.mpr (by intro hc; rw [hc] at hmem; exact List.not_mem_nil d hmem)
    exact hnotp (by simp [inUseWithDest, hin, hmem])
  | some old =>
    have hp : inUseWithDest d old = true := List.find?_some hf
    have hmemo : old ∈ pool := List.mem_of_find?_eq_some hf
    rcases List.getElem?_of_mem hmemo with ⟨i0, hi0⟩
    have hidx : old.index = i0 := hpos i0 old hi0
    show noDest (releaseTieLineDestination pool old.index d) d
    rw [hidx]
    have hino : old.status = TLStatus.inUse := by
      simp [inUseWithDest] at hp
      exact hp.1
    have hdo : d ∈ old.destinations := by
      simp [inUseWithDest] at hp
      exact hp.2
    unfold releaseTieLineDestination
    rw [hi0]
    simp only [hino, if_true]
    intro j tl hj hmem
    by_cases hij : i0 = j
    · subst hij
      have hlt : i0 < pool.length := by
        rcases List.getElem?_eq_some_iff.mp hi0 with ⟨hl, _⟩
        exact hl
      rw [List.getElem?_set_self hlt] at hj
      cases hj
      exact releasedTieLine_not_mem old d hmem
    · rw [List.getElem?_set_ne hij] at hj
      exact hex d i0 j old tl hij hi0 hj hdo hmem

/-- Position-by-position description of the reassignment step, under the
pool invariant: a record not carrying `d` is untouched, the (unique)
carrier has `d` released from it. -/
theorem reassign_char {pool : List TieLine} {d : Nat}
    (hpos : poolPositional pool)
    (hscs : ∀ (i : Nat) (tl : TieLine), pool[i]? = some tl → statusConsistent tl)
    (hex : poolExclusive pool) :
    ∀ (i : Nat) (tl : TieLine), pool[i]? = some tl →
      (d ∉ tl.destinations → (handleOutputReassignment pool d)[i]? = some tl) ∧
      (d ∈ tl.destinations →
        (handleOutputReassignment pool d)[i]? = some (releasedTieLine tl d)) := by
  rcases handleOutputReassignment_eq pool d with ⟨hf, heq⟩ | ⟨old, hf, heq⟩
  · rw [heq]
    intro i tl hi
    refine ⟨fun _ => hi, fun hmem => ?_⟩
    have hnotp := List.find?_eq_none.mp hf tl (List.getElem?_mem hi)
    have hin : tl.status = TLStatus.inUse :=
      (hscs i tl hi).1.mpr (by intro hc; rw [hc] at hmem; exact List.not_mem_nil d hmem)
    exact absurd (by simp [inUseWithDest, hin, hmem]) hnotp
  · have hp : inUseWithDest d old = true := List.find?_some hf
    have hmemo : old ∈ pool := List.mem_of_find?_eq_some hf
    rcases List.getElem?_of_mem hmemo with ⟨i0, hi0⟩
    have hidx : old.index = i0 := hpos i0 old hi0
    have hino : old.status = TLStatus.inUse := by
      simp [inUseWithDest] at hp
      exact hp.1
    have hdo : d ∈ old.destinations := by
      simp [inUseWithDest] at hp
      exact hp.2
    have hlt : i0 < pool.length := by
      rcases List.getElem?_eq_some_iff.mp hi0 with ⟨hl, _⟩
      exact hl
    have heq2 : handleOutputReassignment pool d = pool.set i0 (releasedTieLine old d) := by
      rw [heq, hidx]
      unfold releaseTieLineDestination
      rw [hi0]
      simp [hino]
    rw [heq2]
    intro i tl hi
    constructor
    · intro hnd
      by_cases hii : i0 = i
      · subst hii
        rw [hi0] at hi
        cases hi
        exact absurd hdo hnd
      · rw [List.getElem?_set_ne hii]
        exact hi
    · intro hmem
      by_cases hii : i0 = i
      · subst hii
        rw [hi0] at hi
        cases hi
        rw [List.getElem?_set_self hlt]
      · exact absurd hmem (hex d i0 i old tl hii hi0 hi hdo)

theorem poolInv1_reuseAdd {cfgPool : List ConfigEntry} {pool : List TieLine} {s d : Nat}
    (h : poolInv1 cfgPool pool) :
    poolInv1 cfgPool (modifyFirstMatch (matchesSource s) (addDestination d) pool) := by
  rcases modifyFirstMatch_spec (matchesSource s) (addDestination d) pool with
    ⟨_, heq⟩ | ⟨i, x, hx, hpx, _, heq⟩
  · rw [heq]; exact h
  · rw [heq]
    have hports := addDestination_ports d x
    have hsx : statusConsistent x := h.2.2 i x hx
    have hin : x.status = TLStatus.inUse := by
      simp [matchesSource] at hpx
      exact hpx.1
    refine poolInv1_set h hx hports.1 hports.2.1 hports.2.2.1 ?_
    constructor
    · rw [hports.2.2.2.1, hin]
      constructor
      · intro _
        intro hc
        have hsub := addDestination_mem d x
        have : x.destinations ≠ [] := hsx.1.mp hin
        unfold addDestination at hc
        split at hc
        · exact this hc
        · exact List.append_ne_nil_of_right_ne_nil x.destinations (by simp) hc
      · intro _; rfl
    · rw [hports.2.2.2.1, hports.2.2.2.2]
      exact hsx.2

theorem poolExclusive_reuseAdd {pool : List TieLine} {s d : Nat}
    (hex : poolExclusive pool) (hnone : noDest pool d) :
    poolExclusive (modifyFirstMatch (matchesSource s) (addDestination d) pool) := by
  rcases modifyFirstMatch_spec (matchesSource s) (addDestination d) pool with
    ⟨_, heq⟩ | ⟨i, x, hx, _, _, heq⟩
  · rw [heq]; exact hex
  · rw [heq]
    exact poolExclusive_set_add hex hx hnone (addDestination_mem d x)

theorem poolInv1_allocCommit {cfgPool : List ConfigEntry} {pool : List TieLine} {s d : Nat}
    (h : poolInv1 cfgPool pool) :
    poolInv1 cfgPool (modifyFirstMatch isFree (commitTieLine s d) pool) := by
  rcases modifyFirstMatch_spec isFree (commitTieLine s d) pool with
    ⟨_, heq⟩ | ⟨i, x, hx, _, _, heq⟩
  · rw [heq]; exact h
  · rw [heq]
    refine poolInv1_set h hx rfl rfl rfl ?_
    constructor
    · constructor
      · intro _; simp [commitTieLine]
      · intro _; rfl
    · constructor
      · intro _; simp [commitTieLine]
      · intro _; rfl

theorem poolExclusive_allocCommit {pool : List TieLine} {s d : Nat}
    (hex : poolExclusive pool) (hnone : noDest pool d) :
    poolExclusive (modifyFirstMatch isFree (commitTieLine s d) pool) := by
  rcases modifyFirstMatch_spec isFree (commitTieLine s d) pool with
    ⟨_, heq⟩ | ⟨i, x, hx, _, _, heq⟩
  · rw [heq]; exact hex
  · rw [heq]
    refine poolExclusive_set_add hex hx hnone ?_
    intro q hq
    simp [commitTieLine] at hq
    exact Or.inr hq

theorem poolInv1_map {cfgPool : List ConfigEntry} {pool : List TieLine}
    {f : TieLine → TieLine} (h : poolInv1 cfgPool pool)
    (hports : ∀ tl, (f tl).index = tl.index ∧ (f tl).srcOutput = tl.srcOutput ∧
      (f tl).dstInput = tl.dstInput)
    (hsc : ∀ tl, statusConsistent (f tl)) : poolInv1 cfgPool (pool.map f) := by
  obtain ⟨hpos, ⟨hlen, hcfg⟩, _⟩ := h
  refine ⟨?_, ⟨by simp [hlen], ?_⟩, ?_⟩
  · intro i y hy
    rw [List.getElem?_map] at hy
    cases hx : pool[i]? with
    | none => rw [hx] at hy; cases hy
    | some x =>
      rw [hx] at hy
      cases hy
      rw [(hports x).1]
      exact hpos i x hx
  · intro i e y he hy
    rw [List.getElem?_map] at hy
    cases hx : pool[i]? with
    | none => rw [hx] at hy; cases hy
    | some x =>
      rw [hx] at hy
      cases hy
      have := hcfg i e x he hx
      exact ⟨(hports x).2.1.trans this.1, (hports x).2.2.trans this.2⟩
  · intro i y hy
    rw [List.getElem?_map] at hy
    cases hx : pool[i]? with
    | none => rw [hx] at hy; cases hy
    | some x =>
      rw [hx] at hy
      cases hy
      exact hsc x

theorem poolExclusive_map_empty {pool : List TieLine} {f : TieLine → TieLine}
    (hempty : ∀ tl, (f tl).destinations = []) : poolExclusive (pool.map f) := by
  intro q i j ti tj _ hi _ hqi
  rw [List.getElem?_map] at hi
  cases hx : pool[i]? with
  | none => rw [hx] at hi; cases hi
  | some x =>
    rw [hx] at hi
    cases hi
    rw [hempty x] at hqi
    exact absurd hqi (List.not_mem_nil q)

theorem poolInv1_init (cfgPool : List ConfigEntry) :
    poolInv1 cfgPool (cfgPool.mapIdx fun idx e => mkFreeTieLine idx e) := by
  refine ⟨?_, ⟨by simp, ?_⟩, ?_⟩
  · intro i tl h
    rw [List.getElem?_mapIdx] at h
    cases he : cfgPool[i]? with
    | none => rw [he] at h; cases h
    | some e => rw [he] at h; cases h; rfl
  · intro i e tl he htl
    rw [List.getElem?_mapIdx, he] at htl
    cases htl
    exact ⟨rfl, rfl⟩
  · intro i tl h
    rw [List.getElem?_mapIdx] at h
    cases he : cfgPool[i]? with
    | none => rw [he] at h; cases h
    | some e => rw [he] at h; cases h; exact mkFreeTieLine_statusConsistent i e

theorem poolExclusive_init (cfgPool : List ConfigEntry) :
    poolExclusive (cfgPool.mapIdx fun idx e => mkFreeTieLine idx e) := by
  intro q i j ti tj _ hi _ hqi
  rw [List.getElem?_mapIdx] at hi
  cases he : cfgPool[i]? with
  | none => rw [he] at hi; cases hi
  | some e =>
    rw [he] at hi
    cases hi
    exact absurd hqi (List.not_mem_nil q)

/- ------------------------------------------------------------------ -/
/- Reconstruction lemmas.                                             -/
/- ------------------------------------------------------------------ -/

theorem lookupRoute_mem {r : List (Nat × Nat)} {q v : Nat}
    (h : lookupRoute r q = some v) : (q, v) ∈ r := by
  induction r with
  | nil => cases h
  | cons a rest ih =>
    rcases a with ⟨k, w⟩
    unfold lookupRoute at h
    by_cases hk : k = q
    · rw [if_pos hk] at h
      cases h
      rw [hk]
      exact List.mem_cons_self _ _
    · rw [if_neg hk] at h
      exact List.mem_cons_of_mem _ (ih h)

theorem mem_lookupRoute {r : List (Nat × Nat)} {q v : Nat}
    (hnd : keysNodup r) (h : (q, v) ∈ r) : lookupRoute r q = some v := by
  induction r with
  | nil => cases h
  | cons a rest ih =>
    rcases a with ⟨k, w⟩
    have hnd2 : keysNodup rest := (List.nodup_cons.mp hnd).2
    have hknot : k ∉ rest.map Prod.fst := (List.nodup_cons.mp hnd).1
    rcases List.mem_cons.mp h with hh | hh
    · cases hh
      unfold lookupRoute
      rw [if_pos rfl]
    · unfold lookupRoute
      by_cases hk : k = q
      · subst hk
        exact absurd (List.mem_map_of_mem Prod.fst hh) hknot
      · rw [if_neg hk]
        exact ih hnd2 hh

theorem mem_reconstructDests {routing : List (Nat × Nat)} {excl : List Nat}
    {sink q : Nat} (hnd : keysNodup routing) :
    q ∈ reconstructDests routing excl sink ↔
      (lookupRoute routing q = some sink ∧ q ∉ excl ∧ q ≠ sink) := by
  unfold reconstructDests
  constructor
  · intro hq
    rcases List.mem_map.mp hq with ⟨oi, hoi, hfst⟩
    have hmem := (List.mem_filter.mp hoi).1
    have hcond := (List.mem_filter.mp hoi).2
    rw [decide_eq_true_iff] at hcond
    obtain ⟨hsink, hexcl, hne⟩ := hcond
    subst hfst
    rw [← hsink]
    refine ⟨mem_lookupRoute hnd ?_, hexcl, by rw [hsink] at hne ⊢; exact hne⟩
    cases oi
    exact hmem
  · intro ⟨hlook, hexcl, hne⟩
    refine List.mem_map.mpr ⟨(q, sink), List.mem_filter.mpr ⟨lookupRoute_mem hlook, ?_⟩, rfl⟩
    rw [decide_eq_true_iff]
    exact ⟨rfl, hexcl, hne⟩

theorem reconstructTieLine_ports (rs rd : List (Nat × Nat)) (excl : List Nat) (tl : TieLine) :
    (reconstructTieLine rs rd excl tl).index = tl.index ∧
    (reconstructTieLine rs rd excl tl).srcOutput = tl.srcOutput ∧
    (reconstructTieLine rs rd excl tl).dstInput = tl.dstInput := by
  simp only [reconstructTieLine]
  split
  · split
    · exact ⟨rfl, rfl, rfl⟩
    · exact ⟨rfl, rfl, rfl⟩
  · exact ⟨rfl, rfl, rfl⟩

theorem reconstructTieLine_statusConsistent (rs rd : List (Nat × Nat)) (excl : List Nat)
    (tl : TieLine) : statusConsistent (reconstructTieLine rs rd excl tl) := by
  simp only [reconstructTieLine]
  split
  · split
    · next h => exact freeTieLine_statusConsistent tl
    · next h =>
      have hne : reconstructDests rd excl tl.dstInput ≠ [] := by
        intro hc
        exact h (List.isEmpty_iff.mpr hc)
      constructor
      · constructor
        · intro _; exact hne
        · intro _; rfl
      · constructor
        · intro _; exact Option.noConfusion
        · intro _; rfl
  · exact freeTieLine_statusConsistent tl

theorem reconstructTieLine_dests (rs rd : List (Nat × Nat)) (excl : List Nat) (tl : TieLine) :
    (reconstructTieLine rs rd excl tl).destinations = [] ∨
    (reconstructTieLine rs rd excl tl).destinations = reconstructDests rd excl tl.dstInput := by
  simp only [reconstructTieLine]
  split
  · split
    · exact Or.inl rfl
    · exact Or.inr rfl
  · exact Or.inl rfl

theorem poolExclusive_reconstruct {cfgPool : List ConfigEntry} {pool : List TieLine}
    {routingSrc routingDst : List (Nat × Nat)} {excl : List Nat}
    (hnd : keysNodup routingDst) (hcfg : poolMatchesConfig cfgPool pool)
    (hdst : (cfgPool.map ConfigEntry.dstInput).Nodup) :
    poolExclusive (pool.map (reconstructTieLine routingSrc routingDst excl)) := by
  intro q i j ti tj hij hi hj hqi hqj
  rw [List.getElem?_map] at hi hj
  cases hxi : pool[i]? with
  | none => rw [hxi] at hi; cases hi
  | some a =>
  cases hxj : pool[j]? with
  | none => rw [hxj] at hj; cases hj
  | some b =>
  rw [hxi] at hi
  rw [hxj] at hj
  cases hi
  cases hj
  have hda : q ∈ reconstructDests routingDst excl a.dstInput := by
    rcases reconstructTieLine_dests routingSrc routingDst excl a with hc | hc
    · rw [hc] at hqi; exact absurd hqi (List.not_mem_nil q)
    · rw [hc] at hqi; exact hqi
  have hdb : q ∈ reconstructDests routingDst excl b.dstInput := by
    rcases reconstructTieLine_dests routingSrc routingDst excl b with hc | hc
    · rw [hc] at hqj; exact absurd hqj (List.not_mem_nil q)
    · rw [hc] at hqj; exact hqj
  have hla := ((mem_reconstructDests hnd).mp hda).1
  have hlb := ((mem_reconstructDests hnd).mp hdb).1
  rw [hla] at hlb
  have hab : a.dstInput = b.dstInput := Option.some_injective Nat hlb
  -- positions i and j carry distinct configured sink inputs
  have hleni : i < cfgPool.length := by
    rcases List.getElem?_eq_some_iff.mp hxi with ⟨hl, _⟩
    rw [hcfg.1] at hl
    exact hl
  have hlenj : j < cfgPool.length := by
    rcases List.getElem?_eq_some_iff.mp hxj with ⟨hl, _⟩
    rw [hcfg.1] at hl
    exact hl
  have hei : cfgPool[i]? = some (cfgPool.get ⟨i, hleni⟩) := by
    simp
  have hej : cfgPool[j]? = some (cfgPool.get ⟨j, hlenj⟩) := by
    simp
  have hai := (hcfg.2 i _ a hei hxi).2
  have haj := (hcfg.2 j _ b hej hxj).2
  have hmapi : (cfgPool.map ConfigEntry.dstInput).get
      ⟨i, by simpa using hleni⟩ = a.dstInput := by
    simp
    exact hai.symm
  have hmapj : (cfgPool.map ConfigEntry.dstInput).get
      ⟨j, by simpa using hlenj⟩ = b.dstInput := by
    simp
    exact haj.symm
  have : (⟨i, by simpa using hleni⟩ : Fin (cfgPool.map ConfigEntry.dstInput).length) =
      ⟨j, by simpa using hlenj⟩ := by
    apply List.Nodup.get_inj_iff hdst |>.mp
    rw [hmapi, hmapj, hab]
  exact hij (by simpa using congrArg Fin.val this)

/- ------------------------------------------------------------------ -/
/- Engine-level state effects and preservation.                       -/
/- ------------------------------------------------------------------ -/

theorem Sys.applyRoute_state (sys : Sys) (r : RouterId) (o i : Nat) :
    (sys.applyRoute r o i).state = sys.state := by
  cases r <;> rfl

theorem routeDirect_state (sys : Sys) (r : RouterId) (s d level : Nat) (ok : Bool) :
    (routeDirect sys r s d level ok).sys.state = sys.state := by
  unfold routeDirect
  split
  · split
    · exact Sys.applyRoute_state sys r d s
    · rfl
  · rfl

theorem routeAToB_state_cases (sys : Sys) (s d level : Nat) (ok1 ok2 : Bool) :
    ((routeAToB sys s d level ok1 ok2).sys.state.bToA = sys.state.bToA) ∧
    ((routeAToB sys s d level ok1 ok2).sys.state.aToB = sys.state.aToB ∨
     (routeAToB sys s d level ok1 ok2).sys.state.aToB =
       modifyFirstMatch (matchesSource s) (addDestination d) sys.state.aToB ∨
     (routeAToB sys s d level ok1 ok2).sys.state.aToB =
       modifyFirstMatch isFree (commitTieLine s d) sys.state.aToB) := by
  simp only [routeAToB]
  split
  · split
    · split
      · split
        · exact ⟨rfl, Or.inr (Or.inl rfl)⟩
        · exact ⟨rfl, Or.inl rfl⟩
      · split
        · exact ⟨rfl, Or.inl rfl⟩
        · split
          · split
            · exact ⟨rfl, Or.inr (Or.inr rfl)⟩
            · exact ⟨rfl, Or.inl rfl⟩
          · exact ⟨rfl, Or.inl rfl⟩
    · exact ⟨rfl, Or.inl rfl⟩
  · exact ⟨rfl, Or.inl rfl⟩

theorem routeBToA_state_cases (sys : Sys) (s d level : Nat) (ok1 ok2 : Bool) :
    ((routeBToA sys s d level ok1 ok2).sys.state.aToB = sys.state.aToB) ∧
    ((routeBToA sys s d level ok1 ok2).sys.state.bToA = sys.state.bToA ∨
     (routeBToA sys s d level ok1 ok2).sys.state.bToA =
       modifyFirstMatch (matchesSource s) (addDestination d) sys.state.bToA ∨
     (routeBToA sys s d level ok1 ok2).sys.state.bToA =
       modifyFirstMatch isFree (commitTieLine s d) sys.state.bToA) := by
  simp only [routeBToA]
  split
  · split
    · split
      · split
        · exact ⟨rfl, Or.inr (Or.inl rfl)⟩
        · exact ⟨rfl, Or.inl rfl⟩
      · split
        · exact ⟨rfl, Or.inl rfl⟩
        · split
          · split
            · exact ⟨rfl, Or.inr (Or.inr rfl)⟩
            · exact ⟨rfl, Or.inl rfl⟩
          · exact ⟨rfl, Or.inl rfl⟩
    · exact ⟨rfl, Or.inl rfl⟩
  · exact ⟨rfl, Or.inl rfl⟩

theorem cleanupOutputTieLine_eq (st : EngineState) (r1 r2 : RouterId) (d : Nat) :
    cleanupOutputTieLine st r1 r2 d =
      (match r2 with
       | RouterId.A => { st with bToA := handleOutputReassignment st.bToA d }
       | RouterId.B => { st with aToB := handleOutputReassignment st.aToB d }) := by
  cases r2
  · show cleanupOutputTieLine st r1 RouterId.A d =
      { st with bToA := handleOutputReassignment st.bToA d }
    unfold cleanupOutputTieLine handleOutputReassignment
    cases h : st.bToA.find? (inUseWithDest d) <;> simp
  · show cleanupOutputTieLine st r1 RouterId.B d =
      { st with aToB := handleOutputReassignment st.aToB d }
    unfold cleanupOutputTieLine handleOutputReassignment
    cases h : st.aToB.find? (inUseWithDest d) <;> simp

theorem engineInv1_cleanup {cfg : TLConfig} {st : EngineState}
    (h : engineInv1 cfg st) (r1 r2 : RouterId) (d : Nat) :
    engineInv1 cfg (cleanupOutputTieLine st r1 r2 d) := by
  rw [cleanupOutputTieLine_eq]
  cases r2
  · exact ⟨h.1, poolInv1_reassign h.2⟩
  · exact ⟨poolInv1_reassign h.1, h.2⟩

theorem engineExcl_cleanup {st : EngineState}
    (h : engineExcl st) (r1 r2 : RouterId) (d : Nat) :
    engineExcl (cleanupOutputTieLine st r1 r2 d) := by
  rw [cleanupOutputTieLine_eq]
  cases r2
  · exact ⟨h.1, poolExclusive_reassign h.2⟩
  · exact ⟨poolExclusive_reassign h.1, h.2⟩

theorem engineInv1_executeRoute {cfg : TLConfig} {sys : Sys}
    (h : engineInv1 cfg sys.state) (source dest : Option Resolved) (level : Nat)
    (ok1 ok2 : Bool) :
    engineInv1 cfg (executeRoute sys source dest level ok1 ok2).sys.state := by
  rcases source with _ | s
  · exact h
  rcases dest with _ | d'
  · exact h
  show engineInv1 cfg (executeRoute sys (some s) (some d') level ok1 ok2).sys.state
  simp only [executeRoute]
  split
  · rw [routeDirect_state]
    exact engineInv1_cleanup h s.router d'.router d'.physicalIndex
  · cases hs : s.router <;> cases hd : d'.router
    · simp_all
    · obtain ⟨hb, hcases⟩ := routeAToB_state_cases
        { sys with state := { sys.state with
          aToB := handleOutputReassignment sys.state.aToB d'.physicalIndex } }
        s.physicalIndex d'.physicalIndex level ok1 ok2
      constructor
      · rcases hcases with h1 | h1 | h1 <;> rw [h1] <;>
          first
          | exact poolInv1_reassign h.1
          | exact poolInv1_reuseAdd (poolInv1_reassign h.1)
          | exact poolInv1_allocCommit (poolInv1_reassign h.1)
      · rw [hb]; exact h.2
    · obtain ⟨ha, hcases⟩ := routeBToA_state_cases
        { sys with state := { sys.state with
          bToA := handleOutputReassignment sys.state.bToA d'.physicalIndex } }
        s.physicalIndex d'.physicalIndex level ok1 ok2
      constructor
      · rw [ha]; exact h.1
      · rcases hcases with h1 | h1 | h1 <;> rw [h1] <;>
          first
          | exact poolInv1_reassign h.2
          | exact poolInv1_reuseAdd (poolInv1_reassign h.2)
          | exact poolInv1_allocCommit (poolInv1_reassign h.2)
    · simp_all

theorem engineExcl_executeRoute {cfg : TLConfig} {sys : Sys}
    (h : engineInv1 cfg sys.state) (hex : engineExcl sys.state)
    (source dest : Option Resolved) (level : Nat) (ok1 ok2 : Bool) :
    engineExcl (executeRoute sys source dest level ok1 ok2).sys.state := by
  rcases source with _ | s
  · exact hex
  rcases dest with _ | d'
  · exact hex
  show engineExcl (executeRoute sys (some s) (some d') level ok1 ok2).sys.state
  simp only [executeRoute]
  split
  · rw [routeDirect_state]
    exact engineExcl_cleanup hex s.router d'.router d'.physicalIndex
  · cases hs : s.router <;> cases hd : d'.router
    · simp_all
    · obtain ⟨hb, hcases⟩ := routeAToB_state_cases
        { sys with state := { sys.state with
          aToB := handleOutputReassignment sys.state.aToB d'.physicalIndex } }
        s.physicalIndex d'.physicalIndex level ok1 ok2
      have hnone : noDest (handleOutputReassignment sys.state.aToB d'.physicalIndex)
          d'.physicalIndex := noDest_reassign h.1.1 h.1.2.2 hex.1
      constructor
      · rcases hcases with h1 | h1 | h1 <;> rw [h1] <;>
          first
          | exact poolExclusive_reassign hex.1
          | exact poolExclusive_reuseAdd (poolExclusive_reassign hex.1) hnone
          | exact poolExclusive_allocCommit (poolExclusive_reassign hex.1) hnone
      · rw [hb]; exact hex.2
    · obtain ⟨ha, hcases⟩ := routeBToA_state_cases
        { sys with state := { sys.state with
          bToA := handleOutputReassignment sys.state.bToA d'.physicalIndex } }
        s.physicalIndex d'.physicalIndex level ok1 ok2
      have hnone : noDest (handleOutputReassignment sys.state.bToA d'.physicalIndex)
          d'.physicalIndex := noDest_reassign h.2.1 h.2.2.2 hex.2
      constructor
      · rw [ha]; exact hex.1
      · rcases hcases with h1 | h1 | h1 <;> rw [h1] <;>
          first
          | exact poolExclusive_reassign hex.2
          | exact poolExclusive_reuseAdd (poolExclusive_reassign hex.2) hnone
          | exact poolExclusive_allocCommit (poolExclusive_reassign hex.2) hnone
    · simp_all

theorem engineOp_inv1 {cfg st cfg2 st2} (hop : EngineOp cfg st cfg2 st2)
    (h : engineInv1 cfg st) : engineInv1 cfg2 st2 := by
  cases hop with
  | route cA cB source dest level ok1 ok2 =>
    exact engineInv1_executeRoute h source dest level ok1 ok2
  | releaseAll =>
    exact ⟨poolInv1_map h.1 (fun tl => ⟨rfl, rfl, rfl⟩) freeTieLine_statusConsistent,
           poolInv1_map h.2 (fun tl => ⟨rfl, rfl, rfl⟩) freeTieLine_statusConsistent⟩
  | reconfigure newCfg =>
    exact ⟨poolInv1_init _, poolInv1_init _⟩
  | reconstruct routingA routingB hA hB =>
    exact ⟨poolInv1_map h.1 (reconstructTieLine_ports routingA routingB _)
             (reconstructTieLine_statusConsistent routingA routingB _),
           poolInv1_map h.2 (reconstructTieLine_ports routingB routingA _)
             (reconstructTieLine_statusConsistent routingB routingA _)⟩

theorem engineOp_excl {cfg st cfg2 st2} (hop : EngineOp cfg st cfg2 st2)
    (h : engineInv1 cfg st) (hex : engineExcl st) (hok2 : configOk cfg2) :
    engineExcl st2 := by
  cases hop with
  | route cA cB source dest level ok1 ok2 =>
    exact engineExcl_executeRoute h hex source dest level ok1 ok2
  | releaseAll =>
    exact ⟨poolExclusive_map_empty (fun tl => rfl),
           poolExclusive_map_empty (fun tl => rfl)⟩
  | reconfigure newCfg =>
    exact ⟨poolExclusive_init _, poolExclusive_init _⟩
  | reconstruct routingA routingB hA hB =>
    exact ⟨poolExclusive_reconstruct hB h.1.2.1 hok2.1,
           poolExclusive_reconstruct hA h.2.2.1 hok2.2⟩

theorem reachable_engineInv1 {ok : TLConfig → Prop} {cfg : TLConfig} {st : EngineState}
    (h : Reachable ok cfg st) : engineInv1 cfg st := by
  induction h with
  | init cfg hok => exact ⟨poolInv1_init cfg.aToB, poolInv1_init cfg.bToA⟩
  | step cfg st cfg2 st2 hr hok hop ih => exact engineOp_inv1 hop ih

theorem reachable_engineFull {cfg : TLConfig} {st : EngineState}
    (h : Reachable configOk cfg st) : engineInv1 cfg st ∧ engineExcl st := by
  induction h with
  | init cfg hok =>
    exact ⟨⟨poolInv1_init cfg.aToB, poolInv1_init cfg.bToA⟩,
           ⟨poolExclusive_init cfg.aToB, poolExclusive_init cfg.bToA⟩⟩
  | step cfg st cfg2 st2 hr hok hop ih =>
    exact ⟨engineOp_inv1 hop ih.1, engineOp_excl hop ih.1 ih.2 hok⟩

/- ------------------------------------------------------------------ -/
/- No-allocation evolution (for reuse minimality).                    -/
/- ------------------------------------------------------------------ -/

theorem noAllocation_refl (pool : List TieLine) : noAllocation pool pool :=
  ⟨rfl, Nat.le_refl _, fun i a b ha hb hf => by
    rw [ha] at hb
    cases hb
    exact hf⟩

theorem noAllocation_trans {p1 p2 p3 : List TieLine}
    (h12 : noAllocation p1 p2) (h23 : noAllocation p2 p3) : noAllocation p1 p3 := by
  refine ⟨h23.1.trans h12.1, h23.2.1.trans h12.2.1, ?_⟩
  intro i a b ha hb hf
  have hlt : i < p2.length := by
    rcases List.getElem?_eq_some_iff.mp ha with ⟨hl, _⟩
    rw [h12.1]
    exact hl
  cases hm : p2[i]? with
  | none =>
    rw [List.getElem?_eq_none_iff] at hm
    omega
  | some m =>
    exact h23.2.2 i m b hm hb (h12.2.2 i a m ha hm hf)

theorem noAllocation_set {pool : List TieLine} {i : Nat} {tl x : TieLine}
    (hget : pool[i]? = some tl)
    (hst : x.status = TLStatus.inUse → tl.status = TLStatus.inUse)
    (hfree : tl.status = TLStatus.free → x.status = TLStatus.free) :
    noAllocation pool (pool.set i x) := by
  rcases List.getElem?_eq_some_iff.mp hget with ⟨hlt, hgeteq⟩
  refine ⟨by simp, ?_, ?_⟩
  · unfold countInUse
    rw [List.countP_set _ _ _ _ hlt, hgeteq]
    have hone : (if decide (tl.status = TLStatus.inUse) = true then 1 else 0) ≤
        pool.countP (fun tl => decide (tl.status = TLStatus.inUse)) := by
      have := List.boole_getElem_le_countP
        (fun tl => decide (tl.status = TLStatus.inUse)) pool i hlt
      rw [hgeteq] at this
      exact this
    by_cases hx : x.status = TLStatus.inUse
    · have htl := hst hx
      simp only [hx, htl, decide_True, decide_eq_true_eq, if_true] at hone ⊢
      omega
    · have hc : (decide (x.status = TLStatus.inUse)) = false := by
        simp [hx]
      simp only [hc, Bool.false_eq_true, if_false]
      omega
  · intro j a b ha hb hf
    by_cases hij : i = j
    · subst hij
      rw [ha] at hget
      cases hget
      rw [List.getElem?_set_self hlt] at hb
      cases hb
      exact hfree hf
    · rw [List.getElem?_set_ne hij] at hb
      rw [ha] at hb
      cases hb
      exact hf

theorem noAllocation_release (pool : List TieLine) (i d : Nat) :
    noAllocation pool (releaseTieLineDestination pool i d) := by
  rcases releaseTieLineDestination_eq pool i d with heq | ⟨tl, hget, hin, heq⟩
  · rw [heq]; exact noAllocation_refl pool
  · rw [heq]
    refine noAllocation_set hget (fun _ => hin) (fun hf => ?_)
    rw [hf] at hin
    exact TLStatus.noConfusion hin

theorem noAllocation_reassign (pool : List TieLine) (d : Nat) :
    noAllocation pool (handleOutputReassignment pool d) := by
  rcases handleOutputReassignment_eq pool d with ⟨_, heq⟩ | ⟨tl, _, heq⟩
  · rw [heq]; exact noAllocation_refl pool
  · rw [heq]; exact noAllocation_release pool tl.index d

theorem noAllocation_reuseAdd (pool : List TieLine) (s d : Nat) :
    noAllocation pool (modifyFirstMatch (matchesSource s) (addDestination d) pool) := by
  rcases modifyFirstMatch_spec (matchesSource s) (addDestination d) pool with
    ⟨_, heq⟩ | ⟨i, x, hx, _, _, heq⟩
  · rw [heq]; exact noAllocation_refl pool
  · rw [heq]
    have hst := (addDestination_ports d x).2.2.2.1
    exact noAllocation_set hx (fun h => hst ▸ h) (fun h => hst.symm ▸ h)

/- ------------------------------------------------------------------ -/
/- Branch equations for the cross-router paths.                       -/
/- ------------------------------------------------------------------ -/

theorem routeAToB_reuseOk {sys : Sys} {s : Nat} {tl : TieLine} (d level : Nat) (ok2 : Bool)
    (hA : sys.controllerA.connected = true) (hB : sys.controllerB.connected = true)
    (hfind : sys.state.aToB.find? (matchesSource s) = some tl) :
    routeAToB sys s d level true ok2 =
      { result := { success := true, tieLineIndex := some tl.index, reused := true }
        sys :=
          { sys.applyRoute RouterId.B d tl.dstInput with
            state :=
              { (sys.applyRoute RouterId.B d tl.dstInput).state with
                aToB := modifyFirstMatch (matchesSource s) (addDestination d)
                  (sys.applyRoute RouterId.B d tl.dstInput).state.aToB } }
        cmds := [{ router := RouterId.B, output := d, input := tl.dstInput, level := level }] } := by
  simp only [routeAToB, hA, hB, hfind, if_true]

theorem routeAToB_reuseFail {sys : Sys} {s : Nat} {tl : TieLine} (d level : Nat) (ok2 : Bool)
    (hA : sys.controllerA.connected = true) (hB : sys.controllerB.connected = true)
    (hfind : sys.state.aToB.find? (matchesSource s) = some tl) :
    routeAToB sys s d level false ok2 =
      { result := failResult (EngineError.routeFailed RouterId.B)
        sys := sys
        cmds := [{ router := RouterId.B, output := d, input := tl.dstInput, level := level }] } := by
  simp only [routeAToB, hA, hB, hfind, if_true]
  rfl

theorem routeAToB_exhausted {sys : Sys} {s : Nat} (d level : Nat) (ok1 ok2 : Bool)
    (hA : sys.controllerA.connected = true) (hB : sys.controllerB.connected = true)
    (hm : sys.state.aToB.find? (matchesSource s) = none)
    (hf : sys.state.aToB.find? isFree = none) :
    routeAToB sys s d level ok1 ok2 =
      { result := failResult (EngineError.allInUse Direction.aToB
          sys.state.aToB.length sys.state.aToB.length)
        sys := sys
        cmds := [] } := by
  simp only [routeAToB, hA, hB, hm, hf, if_true]

theorem routeAToB_allocFail1 {sys : Sys} {s : Nat} {tl : TieLine} (d level : Nat) (ok2 : Bool)
    (hA : sys.controllerA.connected = true) (hB : sys.controllerB.connected = true)
    (hm : sys.state.aToB.find? (matchesSource s) = none)
    (hf : sys.state.aToB.find? isFree = some tl) :
    routeAToB sys s d level false ok2 =
      { result := failResult (EngineError.routeFailed RouterId.A)
        sys := sys
        cmds := [{ router := RouterId.A, output := tl.srcOutput, input := s, level := level }] } := by
  simp only [routeAToB, hA, hB, hm, hf, if_true]
  rfl

theorem routeAToB_allocPartial {sys : Sys} {s : Nat} {tl : TieLine} (d level : Nat)
    (hA : sys.controllerA.connected = true) (hB : sys.controllerB.connected = true)
    (hm : sys.state.aToB.find? (matchesSource s) = none)
    (hf : sys.state.aToB.find? isFree = some tl) :
    routeAToB sys s d level true false =
      { result := { success := false
                    partialFailure := true
                    error := some (EngineError.routeFailedAfterFirstLeg RouterId.B) }
        sys := sys.applyRoute RouterId.A tl.srcOutput s
        cmds := [{ router := RouterId.A, output := tl.srcOutput, input := s, level := level },
                 { router := RouterId.B, output := d, input := tl.dstInput, level := level }] } := by
  simp only [routeAToB, hA, hB, hm, hf, if_true]
  rfl

theorem routeAToB_allocOk {sys : Sys} {s : Nat} {tl : TieLine} (d level : Nat)
    (hA : sys.controllerA.connected = true) (hB : sys.controllerB.connected = true)
    (hm : sys.state.aToB.find? (matchesSource s) = none)
    (hf : sys.state.aToB.find? isFree = some tl) :
    routeAToB sys s d level true true =
      { result := { success := true, tieLineIndex := some tl.index, reused := false }
        sys :=
          { (sys.applyRoute RouterId.A tl.srcOutput s).applyRoute RouterId.B d tl.dstInput with
            state :=
              { ((sys.applyRoute RouterId.A tl.srcOutput s).applyRoute
                  RouterId.B d tl.dstInput).state with
                aToB := modifyFirstMatch isFree (commitTieLine s d)
                  ((sys.applyRoute RouterId.A tl.srcOutput s).applyRoute
                    RouterId.B d tl.dstInput).state.aToB } }
        cmds := [{ router := RouterId.A, output := tl.srcOutput, input := s, level := level },
                 { router := RouterId.B, output := d, input := tl.dstInput, level := level }] } := by
  simp only [routeAToB, hA, hB, hm, hf, if_true]

theorem routeAToB_notConnA {sys : Sys} (s d level : Nat) (ok1 ok2 : Bool)
    (hA : sys.controllerA.connected = false) :
    routeAToB sys s d level ok1 ok2 =
      { result := failResult (EngineError.notConnected RouterId.A)
        sys := sys
        cmds := [] } := by
  simp only [routeAToB, hA]
  rfl

theorem routeAToB_notConnB {sys : Sys} (s d level : Nat) (ok1 ok2 : Bool)
    (hA : sys.controllerA.connected = true) (hB : sys.controllerB.connected = false) :
    routeAToB sys s d level ok1 ok2 =
      { result := failResult (EngineError.notConnected RouterId.B)
        sys := sys
        cmds := [] } := by
  simp only [routeAToB, hA, hB, if_true]
  rfl

theorem routeBToA_reuseOk {sys : Sys} {s : Nat} {tl : TieLine} (d level : Nat) (ok2 : Bool)
    (hB : sys.controllerB.connected = true) (hA : sys.controllerA.connected = true)
    (hfind : sys.state.bToA.find? (matchesSource s) = some tl) :
    routeBToA sys s d level true ok2 =
      { result := { success := true, tieLineIndex := some tl.index, reused := true }
        sys :=
          { sys.applyRoute RouterId.A d tl.dstInput with
            state :=
              { (sys.applyRoute RouterId.A d tl.dstInput).state with
                bToA := modifyFirstMatch (matchesSource s) (addDestination d)
                  (sys.applyRoute RouterId.A d tl.dstInput).state.bToA } }
        cmds := [{ router := RouterId.A, output := d, input := tl.dstInput, level := level }] } := by
  simp only [routeBToA, hA, hB, hfind, if_true]

theorem routeBToA_reuseFail {sys : Sys} {s : Nat} {tl : TieLine} (d level : Nat) (ok2 : Bool)
    (hB : sys.controllerB.connected = true) (hA : sys.controllerA.connected = true)
    (hfind : sys.state.bToA.find? (matchesSource s) = some tl) :
    routeBToA sys s d level false ok2 =
      { result := failResult (EngineError.routeFailed RouterId.A)
        sys := sys
        cmds := [{ router := RouterId.A, output := d, input := tl.dstInput, level := level }] } := by
  simp only [routeBToA, hA, hB, hfind, if_true]
  rfl

theorem routeBToA_exhausted {sys : Sys} {s : Nat} (d level : Nat) (ok1 ok2 : Bool)
    (hB : sys.controllerB.connected = true) (hA : sys.controllerA.connected = true)
    (hm : sys.state.bToA.find? (matchesSource s) = none)
    (hf : sys.state.bToA.find? isFree = none) :
    routeBToA sys s d level ok1 ok2 =
      { result := failResult (EngineError.allInUse Direction.bToA
          sys.state.bToA.length sys.state.bToA.length)
        sys := sys
        cmds := [] } := by
  simp only [routeBToA, hA, hB, hm, hf, if_true]

theorem routeBToA_allocFail1 {sys : Sys} {s : Nat} {tl : TieLine} (d level : Nat) (ok2 : Bool)
    (hB : sys.controllerB.connected = true) (hA : sys.controllerA.connected = true)
    (hm : sys.state.bToA.find? (matchesSource s) = none)
    (hf : sys.state.bToA.find? isFree = some tl) :
    routeBToA sys s d level false ok2 =
      { result := failResult (EngineError.routeFailed RouterId.B)
        sys := sys
        cmds := [{ router := RouterId.B, output := tl.srcOutput, input := s, level := level }] } := by
  simp only [routeBToA, hA, hB, hm, hf, if_true]
  rfl

theorem routeBToA_allocPartial {sys : Sys} {s : Nat} {tl : TieLine} (d level : Nat)
    (hB : sys.controllerB.connected = true) (hA : sys.controllerA.connected = true)
    (hm : sys.state.bToA.find? (matchesSource s) = none)
    (hf : sys.state.bToA.find? isFree = some tl) :
    routeBToA sys s d level true false =
      { result := { success := false
                    partialFailure := true
                    error := some (EngineError.routeFailedAfterFirstLeg RouterId.A) }
        sys := sys.applyRoute RouterId.B tl.srcOutput s
        cmds := [{ router := RouterId.B, output := tl.srcOutput, input := s, level := level },
                 { router := RouterId.A, output := d, input := tl.dstInput, level := level }] } := by
  simp only [routeBToA, hA, hB, hm, hf, if_true]
  rfl

theorem routeBToA_allocOk {sys : Sys} {s : Nat} {tl : TieLine} (d level : Nat)
    (hB : sys.controllerB.connected = true) (hA : sys.controllerA.connected = true)
    (hm : sys.state.bToA.find? (matchesSource s) = none)
    (hf : sys.state.bToA.find? isFree = some tl) :
    routeBToA sys s d level true true =
      { result := { success := true, tieLineIndex := some tl.index, reused := false }
        sys :=
          { (sys.applyRoute RouterId.B tl.srcOutput s).applyRoute RouterId.A d tl.dstInput with
            state :=
              { ((sys.applyRoute RouterId.B tl.srcOutput s).applyRoute
                  RouterId.A d tl.dstInput).state with
                bToA := modifyFirstMatch isFree (commitTieLine s d)
                  ((sys.applyRoute RouterId.B tl.srcOutput s).applyRoute
                    RouterId.A d tl.dstInput).state.bToA } }
        cmds := [{ router := RouterId.B, output := tl.srcOutput, input := s, level := level },
                 { router := RouterId.A, output := d, input := tl.dstInput, level := level }] } := by
  simp only [routeBToA, hA, hB, hm, hf, if_true]

theorem routeBToA_notConnB {sys : Sys} (s d level : Nat) (ok1 ok2 : Bool)
    (hB : sys.controllerB.connected = false) :
    routeBToA sys s d level ok1 ok2 =
      { result := failResult (EngineError.notConnected RouterId.B)
        sys := sys
        cmds := [] } := by
  simp only [routeBToA, hB]
  rfl

theorem routeBToA_notConnA {sys : Sys} (s d level : Nat) (ok1 ok2 : Bool)
    (hB : sys.controllerB.connected = true) (hA : sys.controllerA.connected = false) :
    routeBToA sys s d level ok1 ok2 =
      { result := failResult (EngineError.notConnected RouterId.A)
        sys := sys
        cmds := [] } := by
  simp only [routeBToA, hB, hA, if_true]
  rfl

/-- The cross-router dispatch reduces to the directional helper applied
after the destination-output reassignment. -/
theorem executeRoute_inter_eq (sys : Sys) (rs rd : RouterId) (s d level : Nat)
    (ok1 ok2 : Bool) (hne : rs ≠ rd) :
    executeRoute sys (some { router := rs, physicalIndex := s })
        (some { router := rd, physicalIndex := d }) level ok1 ok2 =
      (match rs with
       | RouterId.A => routeAToB { sys with state := { sys.state with
           aToB := handleOutputReassignment sys.state.aToB d } } s d level ok1 ok2
       | RouterId.B => routeBToA { sys with state := { sys.state with
           bToA := handleOutputReassignment sys.state.bToA d } } s d level ok1 ok2) := by
  cases rs <;> cases rd
  · exact absurd rfl hne
  · simp [executeRoute]
  · simp [executeRoute]
  · exact absurd rfl hne

/-- Cross-router dispatch, A-to-B direction. -/
theorem executeRoute_interAB_eq (sys : Sys) (s d level : Nat) (ok1 ok2 : Bool) :
    executeRoute sys (some { router := RouterId.A, physicalIndex := s })
        (some { router := RouterId.B, physicalIndex := d }) level ok1 ok2 =
      routeAToB { sys with state := { sys.state with
        aToB := handleOutputReassignment sys.state.aToB d } } s d level ok1 ok2 := by
  simp [executeRoute]

/-- Cross-router dispatch, B-to-A direction. -/
theorem executeRoute_interBA_eq (sys : Sys) (s d level : Nat) (ok1 ok2 : Bool) :
    executeRoute sys (some { router := RouterId.B, physicalIndex := s })
        (some { router := RouterId.A, physicalIndex := d }) level ok1 ok2 =
      routeBToA { sys with state := { sys.state with
        bToA := handleOutputReassignment sys.state.bToA d } } s d level ok1 ok2 := by
  simp [executeRoute]

/-- The same-router dispatch reduces to cleanup followed by the direct
route. -/
theorem executeRoute_intra_eq (sys : Sys) (r : RouterId) (s d level : Nat)
    (ok1 ok2 : Bool) :
    executeRoute sys (some { router := r, physicalIndex := s })
        (some { router := r, physicalIndex := d }) level ok1 ok2 =
      routeDirect { sys with state := cleanupOutputTieLine sys.state r r d }
        r s d level ok1 := by
  simp [executeRoute]

theorem routeDirect_reused (sys : Sys) (r : RouterId) (s d level : Nat) (ok : Bool) :
    (routeDirect sys r s d level ok).result.reused = false := by
  unfold routeDirect
  split
  · split
    · rfl
    · rfl
  · rfl

theorem routeAToB_noAlloc_of_reused {sys : Sys} {s d level : Nat} {ok1 ok2 : Bool}
    (h : (routeAToB sys s d level ok1 ok2).result.reused = true) :
    noAllocation sys.state.aToB (routeAToB sys s d level ok1 ok2).sys.state.aToB ∧
    (routeAToB sys s d level ok1 ok2).sys.state.bToA = sys.state.bToA := by
  by_cases hA : sys.controllerA.connected = true
  · by_cases hB : sys.controllerB.connected = true
    · cases hfind : sys.state.aToB.find? (matchesSource s) with
      | some tl =>
        cases ok1 with
        | true =>
          rw [routeAToB_reuseOk d level ok2 hA hB hfind]
          constructor
          · show noAllocation sys.state.aToB (modifyFirstMatch (matchesSource s)
              (addDestination d) (sys.applyRoute RouterId.B d tl.dstInput).state.aToB)
            rw [Sys.applyRoute_state]
            exact noAllocation_reuseAdd _ s d
          · show (sys.applyRoute RouterId.B d tl.dstInput).state.bToA = sys.state.bToA
            rw [Sys.applyRoute_state]
        | false =>
          rw [routeAToB_reuseFail d level ok2 hA hB hfind]
          exact ⟨noAllocation_refl _, rfl⟩
      | none =>
        cases hfree : sys.state.aToB.find? isFree with
        | none =>
          rw [routeAToB_exhausted d level ok1 ok2 hA hB hfind hfree]
          exact ⟨noAllocation_refl _, rfl⟩
        | some tl =>
          cases ok1 with
          | false =>
            rw [routeAToB_allocFail1 d level ok2 hA hB hfind hfree]
            exact ⟨noAllocation_refl _, rfl⟩
          | true =>
            cases ok2 with
            | false =>
              rw [routeAToB_allocPartial d level hA hB hfind hfree]
              constructor
              · show noAllocation sys.state.aToB
                  (sys.applyRoute RouterId.A tl.srcOutput s).state.aToB
                rw [Sys.applyRoute_state]
                exact noAllocation_refl _
              · show (sys.applyRoute RouterId.A tl.srcOutput s).state.bToA = sys.state.bToA
                rw [Sys.applyRoute_state]
            | true =>
              rw [routeAToB_allocOk d level hA hB hfind hfree] at h
              simp at h
    · have hB2 : sys.controllerB.connected = false := by
        cases hc : sys.controllerB.connected
        · rfl
        · exact absurd hc hB
      rw [routeAToB_notConnB s d level ok1 ok2 hA hB2]
      exact ⟨noAllocation_refl _, rfl⟩
  · have hA2 : sys.controllerA.connected = false := by
      cases hc : sys.controllerA.connected
      · rfl
      · exact absurd hc hA
    rw [routeAToB_notConnA s d level ok1 ok2 hA2]
    exact ⟨noAllocation_refl _, rfl⟩

theorem routeBToA_noAlloc_of_reused {sys : Sys} {s d level : Nat} {ok1 ok2 : Bool}
    (h : (routeBToA sys s d level ok1 ok2).result.reused = true) :
    noAllocation sys.state.bToA (routeBToA sys s d level ok1 ok2).sys.state.bToA ∧
    (routeBToA sys s d level ok1 ok2).sys.state.aToB = sys.state.aToB := by
  by_cases hB : sys.controllerB.connected = true
  · by_cases hA : sys.controllerA.connected = true
    · cases hfind : sys.state.bToA.find? (matchesSource s) with
      | some tl =>
        cases ok1 with
        | true =>
          rw [routeBToA_reuseOk d level ok2 hB hA hfind]
          constructor
          · show noAllocation sys.state.bToA (modifyFirstMatch (matchesSource s)
              (addDestination d) (sys.applyRoute RouterId.A d tl.dstInput).state.bToA)
            rw [Sys.applyRoute_state]
            exact noAllocation_reuseAdd _ s d
          · show (sys.applyRoute RouterId.A d tl.dstInput).state.aToB = sys.state.aToB
            rw [Sys.applyRoute_state]
        | false =>
          rw [routeBToA_reuseFail d level ok2 hB hA hfind]
          exact ⟨noAllocation_refl _, rfl⟩
      | none =>
        cases hfree : sys.state.bToA.find? isFree with
        | none =>
          rw [routeBToA_exhausted d level ok1 ok2 hB hA hfind hfree]
          exact ⟨noAllocation_refl _, rfl⟩
        | some tl =>
          cases ok1 with
          | false =>
            rw [routeBToA_allocFail1 d level ok2 hB hA hfind hfree]
            exact ⟨noAllocation_refl _, rfl⟩
          | true =>
            cases ok2 with
            | false =>
              rw [routeBToA_allocPartial d level hB hA hfind hfree]
              constructor
              · show noAllocation sys.state.bToA
                  (sys.applyRoute RouterId.B tl.srcOutput s).state.bToA
                rw [Sys.applyRoute_state]
                exact noAllocation_refl _
              · show (sys.applyRoute RouterId.B tl.srcOutput s).state.aToB = sys.state.aToB
                rw [Sys.applyRoute_state]
            | true =>
              rw [routeBToA_allocOk d level hB hA hfind hfree] at h
              simp at h
    · have hA2 : sys.controllerA.connected = false := by
        cases hc : sys.controllerA.connected
        · rfl
        · exact absurd hc hA
      rw [routeBToA_notConnA s d level ok1 ok2 hB hA2]
      exact ⟨noAllocation_refl _, rfl⟩
  · have hB2 : sys.controllerB.connected = false := by
      cases hc : sys.controllerB.connected
      · rfl
      · exact absurd hc hB
    rw [routeBToA_notConnB s d level ok1 ok2 hB2]
    exact ⟨noAllocation_refl _, rfl⟩

theorem executeRoute_noAlloc_of_reused {sys : Sys} {source dest : Option Resolved}
    {level : Nat} {ok1 ok2 : Bool}
    (h : (executeRoute sys source dest level ok1 ok2).result.reused = true) :
    noAllocation sys.state.aToB (executeRoute sys source dest level ok1 ok2).sys.state.aToB ∧
    noAllocation sys.state.bToA (executeRoute sys source dest level ok1 ok2).sys.state.bToA := by
  rcases source with _ | s
  · simp [executeRoute, failResult] at h
  rcases dest with _ | d'
  · simp [executeRoute, failResult] at h
  rcases s with ⟨rs, sp⟩
  rcases d' with ⟨rd, dp⟩
  by_cases hr : rs = rd
  · subst hr
    rw [executeRoute_intra_eq] at h
    rw [routeDirect_reused] at h
    cases h
  · rw [executeRoute_inter_eq sys rs rd sp dp level ok1 ok2 hr] at h ⊢
    cases rs
    · obtain ⟨h1, h2⟩ := routeAToB_noAlloc_of_reused h
      constructor
      · exact noAllocation_trans (noAllocation_reassign sys.state.aToB dp) h1
      · rw [h2]
        exact noAllocation_refl _
    · obtain ⟨h1, h2⟩ := routeBToA_noAlloc_of_reused h
      constructor
      · rw [h2]
        exact noAllocation_refl _
      · exact noAllocation_trans (noAllocation_reassign sys.state.bToA dp) h1

/- ------------------------------------------------------------------ -/
/- Virtual index mapping lemmas.                                      -/
/- ------------------------------------------------------------------ -/

theorem visibleAInputs_nodup (vr : VirtualRouter) : vr.visibleAInputs.Nodup :=
  (List.nodup_range _).filter _

theorem visibleBInputs_nodup (vr : VirtualRouter) : vr.visibleBInputs.Nodup :=
  (List.nodup_range _).filter _

theorem visibleAOutputs_nodup (vr : VirtualRouter) : vr.visibleAOutputs.Nodup :=
  (List.nodup_range _).filter _

theorem visibleBOutputs_nodup (vr : VirtualRouter) : vr.visibleBOutputs.Nodup :=
  (List.nodup_range _).filter _

theorem mem_visibleAInputs (vr : VirtualRouter) (p : Nat) :
    p ∈ vr.visibleAInputs ↔ (p < vr.routerA.inputs ∧ p ∉ vr.excludedAInputs) := by
  simp [VirtualRouter.visibleAInputs, List.mem_filter, List.mem_range]

theorem mem_visibleBInputs (vr : VirtualRouter) (p : Nat) :
    p ∈ vr.visibleBInputs ↔ (p < vr.routerB.inputs ∧ p ∉ vr.excludedBInputs) := by
  simp [VirtualRouter.visibleBInputs, List.mem_filter, List.mem_range]

theorem mem_visibleAOutputs (vr : VirtualRouter) (p : Nat) :
    p ∈ vr.visibleAOutputs ↔ (p < vr.routerA.outputs ∧ p ∉ vr.excludedAOutputs) := by
  simp [VirtualRouter.visibleAOutputs, List.mem_filter, List.mem_range]

theorem mem_visibleBOutputs (vr : VirtualRouter) (p : Nat) :
    p ∈ vr.visibleBOutputs ↔ (p < vr.routerB.outputs ∧ p ∉ vr.excludedBOutputs) := by
  simp [VirtualRouter.visibleBOutputs, List.mem_filter, List.mem_range]

theorem resolveInput_spec (vr : VirtualRouter) (v : Nat) :
    ((∃ r, vr.resolveInput v = some r) ↔ v < vr.totalInputs) ∧
    (∀ (R : RouterId) (p : Nat),
      vr.resolveInput v = some { router := R, physicalIndex := p } →
      visibleInput vr R p ∧ vr.physicalInputToVirtual R p = (v : Int) ∧
      (R = RouterId.A ↔ v < vr.visibleAInputs.length)) := by
  by_cases h : v < vr.visibleAInputs.length
  · have heq : vr.resolveInput v =
        some { router := RouterId.A, physicalIndex := vr.visibleAInputs.get ⟨v, h⟩ } := by
      unfold VirtualRouter.resolveInput
      rw [dif_pos h]
    constructor
    · rw [heq]
      unfold VirtualRouter.totalInputs
      constructor
      · intro _; omega
      · intro _; exact ⟨_, rfl⟩
    · intro R p hp
      rw [heq] at hp
      have hR : RouterId.A = R ∧ vr.visibleAInputs.get ⟨v, h⟩ = p := by
        have := Option.some_injective _ hp
        exact ⟨congrArg Resolved.router this, congrArg Resolved.physicalIndex this⟩
      obtain ⟨hR1, hR2⟩ := hR
      subst hR1
      subst hR2
      have hmem : vr.visibleAInputs.get ⟨v, h⟩ ∈ vr.visibleAInputs :=
        List.get_mem vr.visibleAInputs v h
      refine ⟨(mem_visibleAInputs vr _).mp hmem, ?_, by simp [h]⟩
      show vr.physicalInputToVirtual RouterId.A (vr.visibleAInputs.get ⟨v, h⟩) = (v : Int)
      have hnd := visibleAInputs_nodup vr
      simp [VirtualRouter.physicalInputToVirtual, hmem, List.indexOf_getElem, hnd]
  · by_cases h2 : v - vr.visibleAInputs.length < vr.visibleBInputs.length
    · have heq : vr.resolveInput v =
          some { router := RouterId.B,
                 physicalIndex := vr.visibleBInputs.get ⟨v - vr.visibleAInputs.length, h2⟩ } := by
        unfold VirtualRouter.resolveInput
        rw [dif_neg h, dif_pos h2]
      constructor
      · rw [heq]
        unfold VirtualRouter.totalInputs
        constructor
        · intro _; omega
        · intro _; exact ⟨_, rfl⟩
      · intro R p hp
        rw [heq] at hp
        have hR : RouterId.B = R ∧
            vr.visibleBInputs.get ⟨v - vr.visibleAInputs.length, h2⟩ = p := by
          have := Option.some_injective _ hp
          exact ⟨congrArg Resolved.router this, congrArg Resolved.physicalIndex this⟩
        obtain ⟨hR1, hR2⟩ := hR
        subst hR1
        subst hR2
        have hmem : vr.visibleBInputs.get ⟨v - vr.visibleAInputs.length, h2⟩ ∈
            vr.visibleBInputs := List.get_mem vr.visibleBInputs _ h2
        refine ⟨(mem_visibleBInputs vr _).mp hmem, ?_, ?_⟩
        · show vr.physicalInputToVirtual RouterId.B
            (vr.visibleBInputs.get ⟨v - vr.visibleAInputs.length, h2⟩) = (v : Int)
          have hnd := visibleBInputs_nodup vr
          have hsum : vr.visibleAInputs.length + (v - vr.visibleAInputs.length) = v := by omega
          simp [VirtualRouter.physicalInputToVirtual, hmem, List.indexOf_getElem, hnd, hsum]
        · constructor
          · intro hc; exact RouterId.noConfusion hc
          · intro hc; exact absurd hc h
    · have heq : vr.resolveInput v = none := by
        unfold VirtualRouter.resolveInput
        rw [dif_neg h, dif_neg h2]
      constructor
      · rw [heq]
        unfold VirtualRouter.totalInputs
        constructor
        · intro ⟨r, hr⟩; cases hr
        · intro hc; omega
      · intro R p hp
        rw [heq] at hp
        cases hp

theorem resolveOutput_spec (vr : VirtualRouter) (v : Nat) :
    ((∃ r, vr.resolveOutput v = some r) ↔ v < vr.totalOutputs) ∧
    (∀ (R : RouterId) (p : Nat),
      vr.resolveOutput v = some { router := R, physicalIndex := p } →
      visibleOutput vr R p ∧ vr.physicalOutputToVirtual R p = (v : Int) ∧
      (R = RouterId.A ↔ v < vr.visibleAOutputs.length)) := by
  by_cases h : v < vr.visibleAOutputs.length
  · have heq : vr.resolveOutput v =
        some { router := RouterId.A, physicalIndex := vr.visibleAOutputs.get ⟨v, h⟩ } := by
      unfold VirtualRouter.resolveOutput
      rw [dif_pos h]
    constructor
    · rw [heq]
      unfold VirtualRouter.totalOutputs
      constructor
      · intro _; omega
      · intro _; exact ⟨_, rfl⟩
    · intro R p hp
      rw [heq] at hp
      have hR : RouterId.A = R ∧ vr.visibleAOutputs.get ⟨v, h⟩ = p := by
        have := Option.some_injective _ hp
        exact ⟨congrArg Resolved.router this, congrArg Resolved.physicalIndex this⟩
      obtain ⟨hR1, hR2⟩ := hR
      subst hR1
      subst hR2
      have hmem : vr.visibleAOutputs.get ⟨v, h⟩ ∈ vr.visibleAOutputs :=
        List.get_mem vr.visibleAOutputs v h
      refine ⟨(mem_visibleAOutputs vr _).mp hmem, ?_, by simp [h]⟩
      show vr.physicalOutputToVirtual RouterId.A (vr.visibleAOutputs.get ⟨v, h⟩) = (v : Int)
      have hnd := visibleAOutputs_nodup vr
      simp [VirtualRouter.physicalOutputToVirtual, hmem, List.indexOf_getElem, hnd]
  · by_cases h2 : v - vr.visibleAOutputs.length < vr.visibleBOutputs.length
    · have heq : vr.resolveOutput v =
          some { router := RouterId.B,
                 physicalIndex := vr.visibleBOutputs.get ⟨v - vr.visibleAOutputs.length, h2⟩ } := by
        unfold VirtualRouter.resolveOutput
        rw [dif_neg h, dif_pos h2]
      constructor
      · rw [heq]
        unfold VirtualRouter.totalOutputs
        constructor
        · intro _; omega
        · intro _; exact ⟨_, rfl⟩
      · intro R p hp
        rw [heq] at hp
        have hR : RouterId.B = R ∧
            vr.visibleBOutputs.get ⟨v - vr.visibleAOutputs.length, h2⟩ = p := by
          have := Option.some_injective _ hp
          exact ⟨congrArg Resolved.router this, congrArg Resolved.physicalIndex this⟩
        obtain ⟨hR1, hR2⟩ := hR
        subst hR1
        subst hR2
        have hmem : vr.visibleBOutputs.get ⟨v - vr.visibleAOutputs.length, h2⟩ ∈
            vr.visibleBOutputs := List.get_mem vr.visibleBOutputs _ h2
        refine ⟨(mem_visibleBOutputs vr _).mp hmem, ?_, ?_⟩
        · show vr.physicalOutputToVirtual RouterId.B
            (vr.visibleBOutputs.get ⟨v - vr.visibleAOutputs.length, h2⟩) = (v : Int)
          have hnd := visibleBOutputs_nodup vr
          have hsum : vr.visibleAOutputs.length + (v - vr.visibleAOutputs.length) = v := by omega
          simp [VirtualRouter.physicalOutputToVirtual, hmem, List.indexOf_getElem, hnd, hsum]
        · constructor
          · intro hc; exact RouterId.noConfusion hc
          · intro hc; exact absurd hc h
    · have heq : vr.resolveOutput v = none := by
        unfold VirtualRouter.resolveOutput
        rw [dif_neg h, dif_neg h2]
      constructor
      · rw [heq]
        unfold VirtualRouter.totalOutputs
        constructor
        · intro ⟨r, hr⟩; cases hr
        · intro hc; omega
      · intro R p hp
        rw [heq] at hp
        cases hp

/- ------------------------------------------------------------------ -/
/- Remaining helpers for the claim theorems.                          -/
/- ------------------------------------------------------------------ -/

theorem countP_le_one_of_poolExclusive {pool : List TieLine}
    (hex : poolExclusive pool) (q : Nat) :
    pool.countP (fun tl => decide (q ∈ tl.destinations)) ≤ 1 := by
  induction pool with
  | nil => simp
  | cons a l ih =>
    have hex2 : poolExclusive l := by
      intro q2 i j ti tj hij hi hj hqi
      exact hex q2 (i + 1) (j + 1) ti tj (by omega) (by simpa using hi)
        (by simpa using hj) hqi
    rw [List.countP_cons]
    by_cases hqa : q ∈ a.destinations
    · have hzero : l.countP (fun tl => decide (q ∈ tl.destinations)) = 0 := by
        rw [List.countP_eq_zero]
        intro b hb
        rcases List.getElem?_of_mem hb with ⟨j, hj⟩
        have := hex q 0 (j + 1) a b (by omega) (by simp) (by simpa using hj) hqa
        simpa using this
      simp [hzero, hqa]
    · have := ih hex2
      simp [hqa]
      simpa using this

theorem releaseTieLineDestination_length (pool : List TieLine) (i d : Nat) :
    (releaseTieLineDestination pool i d).length = pool.length := by
  rcases releaseTieLineDestination_eq pool i d with heq | ⟨tl, _, _, heq⟩ <;> rw [heq]
  simp

theorem handleOutputReassignment_length (pool : List TieLine) (d : Nat) :
    (handleOutputReassignment pool d).length = pool.length := by
  rcases handleOutputReassignment_eq pool d with ⟨_, heq⟩ | ⟨tl, _, heq⟩ <;> rw [heq]
  exact releaseTieLineDestination_length pool tl.index d

theorem routeDirect_cmds_connected {sys : Sys} {r : RouterId} (s d level : Nat) (ok : Bool)
    (h : (sys.controller r).connected = true) :
    (routeDirect sys r s d level ok).cmds =
      [{ router := r, output := d, input := s, level := level }] := by
  unfold routeDirect
  rw [if_pos h]
  split <;> rfl

/-- Full characterization of one reconstructed record. -/
theorem reconstructTieLine_char (rs rd : List (Nat × Nat)) (excl : List Nat)
    (tl : TieLine) (hnd : keysNodup rd) :
    ((reconstructTieLine rs rd excl tl).status = TLStatus.inUse ↔
      (lookupRoute rs tl.srcOutput ≠ none ∧ reconstructDests rd excl tl.dstInput ≠ [])) ∧
    ((reconstructTieLine rs rd excl tl).status = TLStatus.inUse →
      (reconstructTieLine rs rd excl tl).sourceInput = lookupRoute rs tl.srcOutput ∧
      ∀ q : Nat, q ∈ (reconstructTieLine rs rd excl tl).destinations ↔
        (lookupRoute rd q = some tl.dstInput ∧ q ∉ excl ∧ q ≠ tl.dstInput)) ∧
    ((reconstructTieLine rs rd excl tl).status = TLStatus.free →
      (reconstructTieLine rs rd excl tl).sourceInput = none ∧
      (reconstructTieLine rs rd excl tl).destinations = []) := by
  cases hl : lookupRoute rs tl.srcOutput with
  | none =>
    simp only [reconstructTieLine, hl]
    refine ⟨?_, ?_, ?_⟩
    · constructor
      · intro hc; exact absurd hc (by simp [freeTieLine])
      · intro hc; exact absurd rfl hc.1
    · intro hc; exact absurd hc (by simp [freeTieLine])
    · intro _; exact ⟨rfl, rfl⟩
  | some src =>
    simp only [reconstructTieLine, hl]
    split
    · next hempty =>
      have hde : reconstructDests rd excl tl.dstInput = [] := List.isEmpty_iff.mp hempty
      refine ⟨?_, ?_, ?_⟩
      · constructor
        · intro hc; exact absurd hc (by simp [freeTieLine])
        · intro hc; exact absurd hde hc.2
      · intro hc; exact absurd hc (by simp [freeTieLine])
      · intro _; exact ⟨rfl, rfl⟩
    · next hempty =>
      have hde : reconstructDests rd excl tl.dstInput ≠ [] := by
        intro hc; exact hempty (List.isEmpty_iff.mpr hc)
      refine ⟨?_, ?_, ?_⟩
      · constructor
        · intro _; exact ⟨by simp, hde⟩
        · intro _; rfl
      · intro _
        exact ⟨rfl, fun q => mem_reconstructDests hnd⟩
      · intro hc; exact absurd hc (by simp)

theorem exCfg2_ok : configOk exCfg2 :=
  ⟨by decide, by decide⟩

theorem exSys2_reachable : Reachable configOk exCfg2 exSys2.state := by
  have h0 : Reachable configOk exCfg2 (initializeState exCfg2) :=
    Reachable.init exCfg2 exCfg2_ok
  have h1 : Reachable configOk exCfg2
      (executeRoute (exSys0 exCfg2)
        (some { router := RouterId.A, physicalIndex := 0 })
        (some { router := RouterId.B, physicalIndex := 2 }) 0 true true).sys.state :=
    Reachable.step _ _ _ _ h0 exCfg2_ok
      (EngineOp.route exCfg2 (initializeState exCfg2)
        { connected := true, routing := [] } { connected := true, routing := [] }
        (some { router := RouterId.A, physicalIndex := 0 })
        (some { router := RouterId.B, physicalIndex := 2 }) 0 true true)
  exact Reachable.step _ _ _ _ h1 exCfg2_ok
    (EngineOp.route exCfg2
      (executeRoute (exSys0 exCfg2)
        (some { router := RouterId.A, physicalIndex := 0 })
        (some { router := RouterId.B, physicalIndex := 2 }) 0 true true).sys.state
      (executeRoute (exSys0 exCfg2)
        (some { router := RouterId.A, physicalIndex := 0 })
        (some { router := RouterId.B, physicalIndex := 2 }) 0 true true).sys.controllerA
      (executeRoute (exSys0 exCfg2)
        (some { router := RouterId.A, physicalIndex := 0 })
        (some { router := RouterId.B, physicalIndex := 2 }) 0 true true).sys.controllerB
      (some { router := RouterId.A, physicalIndex := 1 })
      (some { router := RouterId.B, physicalIndex := 3 }) 0 true true)

/- ------------------------------------------------------------------ -/
/- Claim theorems.                                                    -/
/- ------------------------------------------------------------------ -/

/-- C1: status consistency invariant. In every tie-line engine state
reachable by any sequence of engine operations (initialization,
executeVirtualRoute, release, releaseAllTieLines, updateConfig,
reconstruction), every record of both pools satisfies
`status = in-use ⇔ destinations ≠ ∅ ⇔ sourceInput ≠ nil`. -/
theorem C1_status_consistency (ok : TLConfig → Prop) (cfg : TLConfig) (st : EngineState)
    (h : Reachable ok cfg st) :
    ∀ tl : TieLine, (tl ∈ st.aToB ∨ tl ∈ st.bToA) →
      ((tl.status = TLStatus.inUse ↔ tl.destinations ≠ []) ∧
       (tl.status = TLStatus.inUse ↔ tl.sourceInput ≠ none)) := by
  have hinv := reachable_engineInv1 h
  intro tl htl
  rcases htl with hm | hm
  · rcases List.getElem?_of_mem hm with ⟨i, hi⟩
    exact hinv.1.2.2 i tl hi
  · rcases List.getElem?_of_mem hm with ⟨i, hi⟩
    exact hinv.2.2.2 i tl hi

theorem C1_witness :
    (exTl0 ∈ exSys2.state.aToB ∨ exTl0 ∈ exSys2.state.bToA) ∧
    ((exTl0.status = TLStatus.inUse ↔ exTl0.destinations ≠ []) ∧
     (exTl0.status = TLStatus.inUse ↔ exTl0.sourceInput ≠ none)) :=
  ⟨by decide,
   C1_status_consistency configOk exCfg2 exSys2.state exSys2_reachable exTl0 (by decide)⟩

/-- C2: exclusivity invariant. In every engine state reachable by any
sequence of engine operations, under the configuration precondition that
within one direction no sink input index repeats, each physical
destination port is carried by at most one record of each pool. -/
theorem C2_exclusivity (cfg : TLConfig) (st : EngineState)
    (h : Reachable configOk cfg st) (q : Nat) :
    st.aToB.countP (fun tl => decide (q ∈ tl.destinations)) ≤ 1 ∧
    st.bToA.countP (fun tl => decide (q ∈ tl.destinations)) ≤ 1 := by
  have hfull := reachable_engineFull h
  exact ⟨countP_le_one_of_poolExclusive hfull.2.1 q,
         countP_le_one_of_poolExclusive hfull.2.2 q⟩

theorem C2_witness :
    exSys2.state.aToB.countP (fun tl => decide (2 ∈ tl.destinations)) ≤ 1 ∧
    exSys2.state.bToA.countP (fun tl => decide (2 ∈ tl.destinations)) ≤ 1 :=
  C2_exclusivity exCfg2 exSys2.state exSys2_reachable 2

/-- C10: positional-index invariant. In every engine state reachable by
any sequence of engine operations, every record's `index` field equals
its array position, which is what makes `_releaseTieLineDestination`
(positional lookup through the `index` field of a record found by
search) release the intended record. -/
theorem C10_positional_index (ok : TLConfig → Prop) (cfg : TLConfig) (st : EngineState)
    (h : Reachable ok cfg st) :
    (∀ (i : Nat) (tl : TieLine), st.aToB[i]? = some tl → tl.index = i) ∧
    (∀ (i : Nat) (tl : TieLine), st.bToA[i]? = some tl → tl.index = i) := by
  have hinv := reachable_engineInv1 h
  exact ⟨hinv.1.1, hinv.2.1⟩

theorem C10_witness :
    exSys2.state.aToB[1]? = some exTl1 ∧ exTl1.index = 1 :=
  ⟨by decide,
   (C10_positional_index configOk exCfg2 exSys2.state exSys2_reachable).1 1 exTl1 (by decide)⟩

/-- C3 (amended): reuse minimality. For every executeVirtualRoute call
that returns success with `reused = true`, the number of in-use
tie-lines in each pool does not increase (the original claim's equality
fails: the call's initial release of the destination port can free its
previous tie-line), and no record that was free changes status — no new
tie-line is allocated. -/
theorem C3_reuse_minimality (sys : Sys) (source dest : Option Resolved) (level : Nat)
    (ok1 ok2 : Bool) (out : StepOut)
    (hout : out = executeRoute sys source dest level ok1 ok2)
    (hsucc : out.result.success = true)
    (hreused : out.result.reused = true) :
    (countInUse out.sys.state.aToB ≤ countInUse sys.state.aToB ∧
     countInUse out.sys.state.bToA ≤ countInUse sys.state.bToA) ∧
    (∀ (i : Nat) (a b : TieLine), sys.state.aToB[i]? = some a →
      out.sys.state.aToB[i]? = some b → a.status = TLStatus.free →
      b.status = TLStatus.free) ∧
    (∀ (i : Nat) (a b : TieLine), sys.state.bToA[i]? = some a →
      out.sys.state.bToA[i]? = some b → a.status = TLStatus.free →
      b.status = TLStatus.free) := by
  subst hout
  have h := executeRoute_noAlloc_of_reused hreused
  exact ⟨⟨h.1.2.1, h.2.2.1⟩, h.1.2.2, h.2.2.2⟩

theorem C3_witness :
    ((executeRoute exSys2 (some { router := RouterId.A, physicalIndex := 0 })
        (some { router := RouterId.B, physicalIndex := 4 }) 0 true true).result.success = true ∧
     (executeRoute exSys2 (some { router := RouterId.A, physicalIndex := 0 })
        (some { router := RouterId.B, physicalIndex := 4 }) 0 true true).result.reused = true) ∧
    countInUse (executeRoute exSys2 (some { router := RouterId.A, physicalIndex := 0 })
        (some { router := RouterId.B, physicalIndex := 4 }) 0 true true).sys.state.aToB ≤
      countInUse exSys2.state.aToB :=
  ⟨⟨by decide, by decide⟩,
   (C3_reuse_minimality exSys2 (some { router := RouterId.A, physicalIndex := 0 })
      (some { router := RouterId.B, physicalIndex := 4 }) 0 true true _ rfl
      (by decide) (by decide)).1.1⟩

/-- C3 counterexample: an inter-router call on the two-cable system that
succeeds with `reused = true` while the number of in-use tie-lines in
the pool drops from 2 to 1 (destination 3 was the sole destination of
the second cable, which the call releases before reusing the first). -/
theorem C3_counterexample :
    (executeRoute exSys2 (some { router := RouterId.A, physicalIndex := 0 })
        (some { router := RouterId.B, physicalIndex := 3 }) 0 true true).result.success = true ∧
    (executeRoute exSys2 (some { router := RouterId.A, physicalIndex := 0 })
        (some { router := RouterId.B, physicalIndex := 3 }) 0 true true).result.reused = true ∧
    countInUse exSys2.state.aToB = 2 ∧
    countInUse (executeRoute exSys2 (some { router := RouterId.A, physicalIndex := 0 })
        (some { router := RouterId.B, physicalIndex := 3 }) 0 true true).sys.state.aToB = 1 := by
  decide

theorem cleanup_poolInto (st : EngineState) (r : RouterId) (d : Nat) :
    (cleanupOutputTieLine st r r d).poolInto r =
      handleOutputReassignment (st.poolInto r) d ∧
    (cleanupOutputTieLine st r r d).poolInto (RouterId.other r) =
      st.poolInto (RouterId.other r) := by
  rw [cleanupOutputTieLine_eq]
  cases r <;> exact ⟨rfl, rfl⟩

/-- C4: exhaustion. For every inter-router call where the chosen pool —
as consulted at the allocation decision, after the call's initial
release of the destination port — has no in-use record carrying the
resolved source and no free record, the call fails reporting all N of N
tie-lines in use, issues no physical setRoute, and leaves both
controllers (hence physical routing) unchanged. -/
theorem C4_exhaustion (sys : Sys) (rs rd : RouterId) (s d level : Nat) (ok1 ok2 : Bool)
    (out : StepOut)
    (hout : out = executeRoute sys (some { router := rs, physicalIndex := s })
      (some { router := rd, physicalIndex := d }) level ok1 ok2)
    (hne : rs ≠ rd)
    (hA : sys.controllerA.connected = true) (hB : sys.controllerB.connected = true)
    (hm : (handleOutputReassignment (sys.state.poolInto rd) d).find? (matchesSource s) = none)
    (hf : (handleOutputReassignment (sys.state.poolInto rd) d).find? isFree = none) :
    out.result.success = false ∧
    out.result.error = some (EngineError.allInUse (dirInto rd)
      (sys.state.poolInto rd).length (sys.state.poolInto rd).length) ∧
    out.cmds = [] ∧
    out.sys.controllerA = sys.controllerA ∧
    out.sys.controllerB = sys.controllerB := by
  subst hout
  cases rs
  · cases rd
    · exact absurd rfl hne
    · rw [executeRoute_interAB_eq]
      rw [@routeAToB_exhausted
        { sys with state := { sys.state with
          aToB := handleOutputReassignment sys.state.aToB d } }
        s d level ok1 ok2 hA hB hm hf]
      refine ⟨rfl, ?_, rfl, rfl, rfl⟩
      simp [failResult, handleOutputReassignment_length, dirInto, EngineState.poolInto]
  · cases rd
    · rw [executeRoute_interBA_eq]
      rw [@routeBToA_exhausted
        { sys with state := { sys.state with
          bToA := handleOutputReassignment sys.state.bToA d } }
        s d level ok1 ok2 hB hA hm hf]
      refine ⟨rfl, ?_, rfl, rfl, rfl⟩
      simp [failResult, handleOutputReassignment_length, dirInto, EngineState.poolInto]
    · exact absurd rfl hne

theorem C4_witness :
    (executeRoute exSys2 (some { router := RouterId.A, physicalIndex := 5 })
        (some { router := RouterId.B, physicalIndex := 6 }) 0 true true).result.success = false ∧
    (executeRoute exSys2 (some { router := RouterId.A, physicalIndex := 5 })
        (some { router := RouterId.B, physicalIndex := 6 }) 0 true true).result.error =
      some (EngineError.allInUse (dirInto RouterId.B)
        (exSys2.state.poolInto RouterId.B).length
        (exSys2.state.poolInto RouterId.B).length) ∧
    (executeRoute exSys2 (some { router := RouterId.A, physicalIndex := 5 })
        (some { router := RouterId.B, physicalIndex := 6 }) 0 true true).cmds = [] ∧
    (executeRoute exSys2 (some { router := RouterId.A, physicalIndex := 5 })
        (some { router := RouterId.B, physicalIndex := 6 }) 0 true true).sys.controllerA =
      exSys2.controllerA ∧
    (executeRoute exSys2 (some { router := RouterId.A, physicalIndex := 5 })
        (some { router := RouterId.B, physicalIndex := 6 }) 0 true true).sys.controllerB =
      exSys2.controllerB :=
  C4_exhaustion exSys2 RouterId.A RouterId.B 5 6 0 true true _ rfl
    (by decide) (by decide) (by decide) (by decide) (by decide)

/-- C5: partial-failure semantics. On the inter-router allocation path,
when the source-side setRoute succeeds and the destination-side setRoute
fails, the call returns failure with partialFailure = true, issues
exactly the two setRoutes (no rollback of the source leg, which remains
applied to the source router's mirror), and the chosen tie-line record
keeps status free with undefined sourceInput and empty destinations. -/
theorem C5_partial_failure (sys : Sys) (rs rd : RouterId) (s d level : Nat)
    (tl : TieLine) (out : StepOut)
    (hout : out = executeRoute sys (some { router := rs, physicalIndex := s })
      (some { router := rd, physicalIndex := d }) level true false)
    (hne : rs ≠ rd)
    (hA : sys.controllerA.connected = true) (hB : sys.controllerB.connected = true)
    (hm : (handleOutputReassignment (sys.state.poolInto rd) d).find? (matchesSource s) = none)
    (hf : (handleOutputReassignment (sys.state.poolInto rd) d).find? isFree = some tl)
    (hsc : ∀ (i : Nat) (x : TieLine),
      (handleOutputReassignment (sys.state.poolInto rd) d)[i]? = some x →
      statusConsistent x) :
    out.result.success = false ∧
    out.result.partialFailure = true ∧
    out.cmds = [{ router := rs, output := tl.srcOutput, input := s, level := level },
                { router := rd, output := d, input := tl.dstInput, level := level }] ∧
    out.sys.state.poolInto rd = handleOutputReassignment (sys.state.poolInto rd) d ∧
    out.sys.state.poolInto rs = sys.state.poolInto rs ∧
    out.sys.controller rs = (sys.controller rs).applyRoute tl.srcOutput s ∧
    out.sys.controller rd = sys.controller rd ∧
    tl.status = TLStatus.free ∧ tl.sourceInput = none ∧ tl.destinations = [] := by
  subst hout
  have hfree : isFree tl = true := List.find?_some hf
  have hstat : tl.status = TLStatus.free := by simpa [isFree] using hfree
  have hmem : tl ∈ handleOutputReassignment (sys.state.poolInto rd) d :=
    List.mem_of_find?_eq_some hf
  rcases List.getElem?_of_mem hmem with ⟨i, hi⟩
  have hsctl := hsc i tl hi
  have hsrc : tl.sourceInput = none := by
    by_contra hc
    have := hsctl.2.mpr hc
    rw [hstat] at this
    exact TLStatus.noConfusion this
  have hdst : tl.destinations = [] := by
    by_contra hc
    have := hsctl.1.mpr hc
    rw [hstat] at this
    exact TLStatus.noConfusion this
  cases rs
  · cases rd
    · exact absurd rfl hne
    · rw [executeRoute_interAB_eq]
      rw [@routeAToB_allocPartial
        { sys with state := { sys.state with
          aToB := handleOutputReassignment sys.state.aToB d } }
        s tl d level hA hB hm hf]
      exact ⟨rfl, rfl, rfl, rfl, rfl, rfl, rfl, hstat, hsrc, hdst⟩
  · cases rd
    · rw [executeRoute_interBA_eq]
      rw [@routeBToA_allocPartial
        { sys with state := { sys.state with
          bToA := handleOutputReassignment sys.state.bToA d } }
        s tl d level hB hA hm hf]
      exact ⟨rfl, rfl, rfl, rfl, rfl, rfl, rfl, hstat, hsrc, hdst⟩
    · exact absurd rfl hne

theorem C5_witness :
    (executeRoute (exSys0 exCfg1) (some { router := RouterId.A, physicalIndex := 0 })
        (some { router := RouterId.B, physicalIndex := 0 }) 0 true false).result.success = false ∧
    (executeRoute (exSys0 exCfg1) (some { router := RouterId.A, physicalIndex := 0 })
        (some { router := RouterId.B, physicalIndex := 0 }) 0 true false).result.partialFailure =
      true ∧
    (executeRoute (exSys0 exCfg1) (some { router := RouterId.A, physicalIndex := 0 })
        (some { router := RouterId.B, physicalIndex := 0 }) 0 true false).cmds =
      [{ router := RouterId.A, output := 7, input := 0, level := 0 },
       { router := RouterId.B, output := 0, input := 0, level := 0 }] := by
  have h0 : Reachable configOk exCfg1 (initializeState exCfg1) :=
    Reachable.init exCfg1 ⟨by decide, by decide⟩
  have hinv := (reachable_engineFull h0).1.1
  have hc := C5_partial_failure (exSys0 exCfg1) RouterId.A RouterId.B 0 0 0
    { index := 0, srcOutput := 7, dstInput := 0, status := TLStatus.free,
      sourceInput := none, destinations := [] } _ rfl
    (by decide) (by decide) (by decide) (by decide) (by decide)
    (poolInv1_reassign hinv).2.2
  exact ⟨hc.1, hc.2.1, hc.2.2.1⟩

/-- C6: intra-router release-on-retarget. For a call whose resolved
source and destination lie on the same router R, the engine removes the
destination port from the (at most one, by exclusivity) in-use tie-line
carrying it in the pool directed into R, that record keeps its filtered
destination list and is freed (sourceInput cleared) exactly when the
list empties, every other record of that pool and the whole other pool
are untouched, no physical command is issued for the release itself,
and exactly one setRoute(dstPort, srcPort, level) is issued on R. -/
theorem C6_intra_release (sys : Sys) (R : RouterId) (s d level : Nat) (ok1 ok2 : Bool)
    (out : StepOut)
    (hout : out = executeRoute sys (some { router := R, physicalIndex := s })
      (some { router := R, physicalIndex := d }) level ok1 ok2)
    (hconn : (sys.controller R).connected = true)
    (hpos : poolPositional (sys.state.poolInto R))
    (hsc : ∀ (i : Nat) (x : TieLine),
      (sys.state.poolInto R)[i]? = some x → statusConsistent x)
    (hex : poolExclusive (sys.state.poolInto R)) :
    (∀ (i : Nat) (x : TieLine), (sys.state.poolInto R)[i]? = some x →
      (d ∉ x.destinations → (out.sys.state.poolInto R)[i]? = some x) ∧
      (d ∈ x.destinations →
        (out.sys.state.poolInto R)[i]? = some (releasedTieLine x d) ∧
        (releasedTieLine x d).destinations =
          x.destinations.filter (fun y => decide (y ≠ d)) ∧
        ((releasedTieLine x d).status = TLStatus.free ↔
          x.destinations.filter (fun y => decide (y ≠ d)) = []) ∧
        ((releasedTieLine x d).sourceInput = none ↔
          (releasedTieLine x d).status = TLStatus.free))) ∧
    out.sys.state.poolInto (RouterId.other R) = sys.state.poolInto (RouterId.other R) ∧
    out.cmds = [{ router := R, output := d, input := s, level := level }] := by
  subst hout
  rw [executeRoute_intra_eq sys R s d level ok1 ok2]
  rw [routeDirect_state, (cleanup_poolInto sys.state R d).1, (cleanup_poolInto sys.state R d).2]
  refine ⟨?_, rfl, ?_⟩
  · intro i x hx
    have hchar := reassign_char (d := d) hpos hsc hex i x hx
    refine ⟨hchar.1, fun hmem => ?_⟩
    have hin : x.status = TLStatus.inUse := (hsc i x hx).1.mpr (by
      intro hc
      rw [hc] at hmem
      exact List.not_mem_nil d hmem)
    exact ⟨hchar.2 hmem, releasedTieLine_destinations x d,
      releasedTieLine_free_iff x d hin,
      releasedTieLine_source_iff x d (hsc i x hx) hin⟩
  · exact @routeDirect_cmds_connected
      { sys with state := cleanupOutputTieLine sys.state R R d } R s d level ok1 hconn

theorem C6_witness :
    (executeRoute exSys2 (some { router := RouterId.B, physicalIndex := 5 })
        (some { router := RouterId.B, physicalIndex := 2 }) 0 true true).sys.state.poolInto
      (RouterId.other RouterId.B) = exSys2.state.poolInto (RouterId.other RouterId.B) ∧
    (executeRoute exSys2 (some { router := RouterId.B, physicalIndex := 5 })
        (some { router := RouterId.B, physicalIndex := 2 }) 0 true true).cmds =
      [{ router := RouterId.B, output := 2, input := 5, level := 0 }] := by
  have hfull := reachable_engineFull exSys2_reachable
  have hc := C6_intra_release exSys2 RouterId.B 5 2 0 true true _ rfl
    (by decide) hfull.1.1.1 hfull.1.1.2.2 hfull.2.1
  exact ⟨hc.2.1, hc.2.2⟩

/-- C8 (amended): reuse-path atomicity on failure. For an inter-router
call that takes the reuse path and whose destination-side setRoute
fails, the call returns failure, issues exactly the one failed setRoute,
leaves both controller mirrors unchanged, and the reuse step itself
mutates nothing: the tie-line state after the call equals the state
after the call's initial release of the destination port from the
record that previously carried it (every record not carrying the port
is unchanged; the original claim's full-state identity fails because
that prior release is not undone). -/
theorem C8_reuse_failure (sys : Sys) (rs rd : RouterId) (s d level : Nat) (ok2 : Bool)
    (tl : TieLine) (out : StepOut)
    (hout : out = executeRoute sys (some { router := rs, physicalIndex := s })
      (some { router := rd, physicalIndex := d }) level false ok2)
    (hne : rs ≠ rd)
    (hA : sys.controllerA.connected = true) (hB : sys.controllerB.connected = true)
    (hm : (handleOutputReassignment (sys.state.poolInto rd) d).find? (matchesSource s) = some tl)
    (hpos : poolPositional (sys.state.poolInto rd))
    (hsc : ∀ (i : Nat) (x : TieLine),
      (sys.state.poolInto rd)[i]? = some x → statusConsistent x)
    (hex : poolExclusive (sys.state.poolInto rd)) :
    out.result.success = false ∧
    out.cmds = [{ router := rd, output := d, input := tl.dstInput, level := level }] ∧
    out.sys.controllerA = sys.controllerA ∧
    out.sys.controllerB = sys.controllerB ∧
    out.sys.state.poolInto rd = handleOutputReassignment (sys.state.poolInto rd) d ∧
    out.sys.state.poolInto rs = sys.state.poolInto rs ∧
    (∀ (i : Nat) (x : TieLine), (sys.state.poolInto rd)[i]? = some x →
      (d ∉ x.destinations → (out.sys.state.poolInto rd)[i]? = some x) ∧
      (d ∈ x.destinations →
        (out.sys.state.poolInto rd)[i]? = some (releasedTieLine x d))) := by
  subst hout
  cases rs
  · cases rd
    · exact absurd rfl hne
    · rw [executeRoute_interAB_eq]
      rw [@routeAToB_reuseFail
        { sys with state := { sys.state with
          aToB := handleOutputReassignment sys.state.aToB d } }
        s tl d level ok2 hA hB hm]
      exact ⟨rfl, rfl, rfl, rfl, rfl, rfl, reassign_char hpos hsc hex⟩
  · cases rd
    · rw [executeRoute_interBA_eq]
      rw [@routeBToA_reuseFail
        { sys with state := { sys.state with
          bToA := handleOutputReassignment sys.state.bToA d } }
        s tl d level ok2 hB hA hm]
      exact ⟨rfl, rfl, rfl, rfl, rfl, rfl, reassign_char hpos hsc hex⟩
    · exact absurd rfl hne

theorem C8_witness :
    (executeRoute exSys2 (some { router := RouterId.A, physicalIndex := 0 })
        (some { router := RouterId.B, physicalIndex := 3 }) 0 false false).result.success =
      false ∧
    (executeRoute exSys2 (some { router := RouterId.A, physicalIndex := 0 })
        (some { router := RouterId.B, physicalIndex := 3 }) 0 false false).sys.state.poolInto
      RouterId.B = handleOutputReassignment (exSys2.state.poolInto RouterId.B) 3 := by
  have hfull := reachable_engineFull exSys2_reachable
  have hc := C8_reuse_failure exSys2 RouterId.A RouterId.B 0 3 0 false
    { index := 0, srcOutput := 7, dstInput := 0, status := TLStatus.inUse,
      sourceInput := some 0, destinations := [2] } _ rfl
    (by decide) (by decide) (by decide) (by decide)
    hfull.1.1.1 hfull.1.1.2.2 hfull.2.1
  exact ⟨hc.1, hc.2.2.2.2.1⟩

/-- C8 counterexample: an inter-router call on the two-cable system that
takes the reuse path (the reassigned pool still has an in-use record
carrying source 0) and whose destination-side setRoute fails, yet the
tie-line state after the call differs from the state before it: the
record that previously carried destination 3 lost it and was freed. -/
theorem C8_counterexample :
    ((handleOutputReassignment (exSys2.state.poolInto RouterId.B) 3).find?
      (matchesSource 0)).isSome = true ∧
    (executeRoute exSys2 (some { router := RouterId.A, physicalIndex := 0 })
        (some { router := RouterId.B, physicalIndex := 3 }) 0 false false).result.success =
      false ∧
    ¬ ((executeRoute exSys2 (some { router := RouterId.A, physicalIndex := 0 })
        (some { router := RouterId.B, physicalIndex := 3 }) 0 false false).sys.state =
      exSys2.state) := by
  decide

/-- C7: reconstruction correctness. For every configured A-to-B record,
reconstruction marks it in use with the observed source and exactly the
destination set D of outputs routed to its sink input, excluding
configured B-to-A tie-line source outputs and the default passthrough
output equal to the sink input, precisely when the source leg is routed
and D is nonempty, and free (cleared) otherwise; symmetrically for
B-to-A.  The spec's concrete instance evaluates as expected. -/
theorem C7_reconstruction (cfg : TLConfig) (routingA routingB : List (Nat × Nat))
    (st : EngineState) (hndA : keysNodup routingA) (hndB : keysNodup routingB) :
    (∀ (i : Nat) (tl : TieLine), st.aToB[i]? = some tl →
      ∃ tl2 : TieLine,
        (reconstructStateFromRouting cfg routingA routingB st).aToB[i]? = some tl2 ∧
        tl2.index = tl.index ∧ tl2.srcOutput = tl.srcOutput ∧ tl2.dstInput = tl.dstInput ∧
        (tl2.status = TLStatus.inUse ↔
          (lookupRoute routingA tl.srcOutput ≠ none ∧
           reconstructDests routingB (cfg.bToA.map ConfigEntry.srcOutput) tl.dstInput ≠ [])) ∧
        (tl2.status = TLStatus.inUse →
          tl2.sourceInput = lookupRoute routingA tl.srcOutput ∧
          ∀ q : Nat, q ∈ tl2.destinations ↔
            (lookupRoute routingB q = some tl.dstInput ∧
             q ∉ cfg.bToA.map ConfigEntry.srcOutput ∧ q ≠ tl.dstInput)) ∧
        (tl2.status = TLStatus.free → tl2.sourceInput = none ∧ tl2.destinations = [])) ∧
    (∀ (i : Nat) (tl : TieLine), st.bToA[i]? = some tl →
      ∃ tl2 : TieLine,
        (reconstructStateFromRouting cfg routingA routingB st).bToA[i]? = some tl2 ∧
        tl2.index = tl.index ∧ tl2.srcOutput = tl.srcOutput ∧ tl2.dstInput = tl.dstInput ∧
        (tl2.status = TLStatus.inUse ↔
          (lookupRoute routingB tl.srcOutput ≠ none ∧
           reconstructDests routingA (cfg.aToB.map ConfigEntry.srcOutput) tl.dstInput ≠ [])) ∧
        (tl2.status = TLStatus.inUse →
          tl2.sourceInput = lookupRoute routingB tl.srcOutput ∧
          ∀ q : Nat, q ∈ tl2.destinations ↔
            (lookupRoute routingA q = some tl.dstInput ∧
             q ∉ cfg.aToB.map ConfigEntry.srcOutput ∧ q ≠ tl.dstInput)) ∧
        (tl2.status = TLStatus.free → tl2.sourceInput = none ∧ tl2.destinations = [])) ∧
    (reconstructStateFromRouting exCfg1 [(7, 3)] [(0, 0), (4, 0), (5, 0)]
        (initializeState exCfg1)).aToB =
      [{ index := 0, srcOutput := 7, dstInput := 0, status := TLStatus.inUse,
         sourceInput := some 3, destinations := [4, 5] }] := by
  refine ⟨?_, ?_, by decide⟩
  · intro i tl hi
    refine ⟨reconstructTieLine routingA routingB (cfg.bToA.map ConfigEntry.srcOutput) tl,
      ?_, ?_⟩
    · show (st.aToB.map (reconstructTieLine routingA routingB
        (cfg.bToA.map ConfigEntry.srcOutput)))[i]? = _
      rw [List.getElem?_map, hi]
      rfl
    · have hports := reconstructTieLine_ports routingA routingB
        (cfg.bToA.map ConfigEntry.srcOutput) tl
      have hchar := reconstructTieLine_char routingA routingB
        (cfg.bToA.map ConfigEntry.srcOutput) tl hndB
      exact ⟨hports.1, hports.2.1, hports.2.2, hchar.1, hchar.2.1, hchar.2.2⟩
  · intro i tl hi
    refine ⟨reconstructTieLine routingB routingA (cfg.aToB.map ConfigEntry.srcOutput) tl,
      ?_, ?_⟩
    · show (st.bToA.map (reconstructTieLine routingB routingA
        (cfg.aToB.map ConfigEntry.srcOutput)))[i]? = _
      rw [List.getElem?_map, hi]
      rfl
    · have hports := reconstructTieLine_ports routingB routingA
        (cfg.aToB.map ConfigEntry.srcOutput) tl
      have hchar := reconstructTieLine_char routingB routingA
        (cfg.aToB.map ConfigEntry.srcOutput) tl hndA
      exact ⟨hports.1, hports.2.1, hports.2.2, hchar.1, hchar.2.1, hchar.2.2⟩

theorem C7_witness :
    (reconstructStateFromRouting exCfg1 [(7, 3)] [(0, 0), (4, 0), (5, 0)]
        (initializeState exCfg1)).aToB =
      [{ index := 0, srcOutput := 7, dstInput := 0, status := TLStatus.inUse,
         sourceInput := some 3, destinations := [4, 5] }] :=
  (C7_reconstruction exCfg1 [(7, 3)] [(0, 0), (4, 0), (5, 0)] (initializeState exCfg1)
    (show ([(7, 3)].map Prod.fst).Nodup by decide)
    (show ([(0, 0), (4, 0), (5, 0)].map Prod.fst).Nodup by decide)).2.2

/-- C9: index-mapping round trip. A virtual input index resolves exactly
when it is below totalInputs; the resolved physical port is visible
(in range and not a tie-line port) and maps back through
physicalInputToVirtual to the same virtual index, with the A-visible
sequence preceding the B-visible sequence; symmetrically for outputs. -/
theorem C9_round_trip (vr : VirtualRouter) (v : Nat) :
    (((∃ r, vr.resolveInput v = some r) ↔ v < vr.totalInputs) ∧
     ∀ (R : RouterId) (p : Nat),
       vr.resolveInput v = some { router := R, physicalIndex := p } →
       visibleInput vr R p ∧ vr.physicalInputToVirtual R p = (v : Int) ∧
       (R = RouterId.A ↔ v < vr.visibleAInputs.length)) ∧
    (((∃ r, vr.resolveOutput v = some r) ↔ v < vr.totalOutputs) ∧
     ∀ (R : RouterId) (p : Nat),
       vr.resolveOutput v = some { router := R, physicalIndex := p } →
       visibleOutput vr R p ∧ vr.physicalOutputToVirtual R p = (v : Int) ∧
       (R = RouterId.A ↔ v < vr.visibleAOutputs.length)) :=
  ⟨resolveInput_spec vr v, resolveOutput_spec vr v⟩

end TLM
